import Mathlib

/-!
Verification of the firmware's device-communication core: the serial framing
protocol engine (`parse_config.h`, second unit), the IS31FL3731 LED driver
state machine (`slave_protocol.h`, third unit) and the UHK module driver state
machine (`uhk_module_driver.c`).

The C sources are shallowly embedded: byte-level link I/O becomes explicit
consumption of an input byte list and an output trace of write calls, the
process-wide `g_serialContext` becomes an explicit state record threaded
through the functions, and machine integers become `Nat` (the embedded code
never exceeds the relevant widths under the stated hypotheses).

Constants that live in headers not present in the repository snapshot
(`serial_packet.h`, `is31fl3731.h`, ...) are modelled as explicit definitions;
each carries a doc comment saying so.  The two constants that the LED
convergence analysis depends on, `LED_DRIVER_LED_COUNT` and
`PMW_REGISTER_UPDATE_CHUNK_SIZE`, are kept as parameters `N` and `C` of the
embedding, so all LED theorems are proved for every choice of the constants
with `0 < C ≤ N`.
-/

namespace Firmware

/-! ## CRC-16/XMODEM

Modelled from the spec: the `crc16.h` collaborator is not part of the
repository snapshot; the spec fixes its contract to CRC-16/XMODEM
(polynomial 0x1021, initial value 0, no reflection, no final xor).
The model is validated below against the precomputed value `0xeaaa`
recorded in the source comment of `k_PingResponse`. -/

/-- One shift step of the CRC-16/XMODEM register. -/
def crcShift (c : Nat) : Nat :=
  if 32768 ≤ c then ((c * 2) % 65536) ^^^ 0x1021 else (c * 2) % 65536

/-- Feed one byte into a CRC-16/XMODEM register. -/
def crc16_update_byte (c b : Nat) : Nat :=
  Nat.iterate crcShift 8 (c ^^^ ((b % 256) * 256))

/-- CRC-16/XMODEM over a byte list, initial register 0. -/
def crc16_list (bytes : List Nat) : Nat :=
  bytes.foldl crc16_update_byte 0

/-- `k_PingResponse` stores the precomputed crc16 `0xeaaa` of start byte,
packet type, version quad and options.  With the serial-protocol version quad
{bugfix 0, minor 2, major 1, name 0x50} (the values live in a header missing
from the snapshot; the hex dump in the source comment miscopies the minor
byte as 00) the model reproduces the stored value, validating the CRC
embedding against the source. -/
theorem crc16_matches_source_constant :
    crc16_list [0x5a, 0xa7, 0x00, 0x02, 0x01, 0x50, 0x00, 0x00] = 0xeaaa := by
  set_option maxRecDepth 10000 in decide

/-! ## Framing-protocol constants -/

/-- Start sentinel of every framing packet; corroborated by the
`k_PingResponse` source comment (`[5a a7 ...]`). -/
def kFramingPacketStartByte : Nat := 0x5A

/-- Modelled from the spec: sync/packet type codes live in the missing
`serial_packet.h`; `PingResponse = 0xa7` is corroborated by the
`k_PingResponse` source comment. -/
def kFramingPacketType_Ack : Nat := 0xA1

/-- Modelled from the spec (missing `serial_packet.h`). -/
def kFramingPacketType_Nak : Nat := 0xA2

/-- Modelled from the spec (missing `serial_packet.h`). -/
def kFramingPacketType_AckAbort : Nat := 0xA3

/-- Modelled from the spec (missing `serial_packet.h`). -/
def kFramingPacketType_Command : Nat := 0xA4

/-- Modelled from the spec (missing `serial_packet.h`). -/
def kFramingPacketType_Data : Nat := 0xA5

/-- Modelled from the spec (missing `serial_packet.h`). -/
def kFramingPacketType_Ping : Nat := 0xA6

/-- Modelled from the spec (missing `serial_packet.h`); corroborated by the
`k_PingResponse` source comment. -/
def kFramingPacketType_PingResponse : Nat := 0xA7

/-- Modelled from the spec: maximum payload of an outgoing packet
(missing `serial_packet.h`); the value only bounds the argument check. -/
def kOutgoingPacketBufferSize : Nat := 32

/-- Modelled from the spec: size of the incoming payload buffer, to which a
received length field is clamped (missing `serial_packet.h`). -/
def kIncomingPacketBufferSize : Nat := 32

/-- Modelled from the spec: bound on the number of bytes scanned while
looking for the start sentinel (missing header). -/
def kHostMaxStartByteReadCount : Nat := 2

/-- Serialized `ping_response_t k_PingResponse`: version quad
{bugfix 0, minor 0, major 1, name 0x50}, options 0x0000 (LE), crc16 0xeaaa
(LE), as recorded in the source. -/
def k_PingResponse_bytes : List Nat := [0x00, 0x02, 0x01, 0x50, 0x00, 0x00, 0xAA, 0xEA]

/-! ## Data model of the framing engine -/

/-- Status codes returned by the engine (`status_t`).  `kStatus_NoReadSource`
models the failure status of the underlying byte-interface `read` when the
peer sends nothing further (the modelled input stream is exhausted). -/
inductive status_t where
  | kStatus_Success
  | kStatus_Fail
  | kStatus_InvalidArgument
  | kStatus_Timeout
  | kStatus_AbortDataPhase
  | kStatus_Ping
  | kStatus_NoReadSource
  | kStatus_Uhk_IdleSlave
  | kStatus_Uhk_NoTransfer
  deriving DecidableEq, Repr

export status_t (kStatus_Success kStatus_Fail kStatus_InvalidArgument
  kStatus_Timeout kStatus_AbortDataPhase kStatus_Ping kStatus_NoReadSource
  kStatus_Uhk_IdleSlave kStatus_Uhk_NoTransfer)

/-- API-level packet class selector (`packet_type_t`). -/
inductive packet_type_t where
  | kPacketType_Command
  | kPacketType_Data
  deriving DecidableEq, Repr

export packet_type_t (kPacketType_Command kPacketType_Data)

/-- `framing_data_packet_t`: start byte, packet type, u16 length, u16 crc16. -/
structure framing_data_packet_t where
  startByte : Nat
  packetType : Nat
  length : Nat
  crc16 : Nat
  deriving DecidableEq, Repr

instance : Inhabited framing_data_packet_t := ⟨⟨0, 0, 0, 0⟩⟩

/-- `serial_framing_packet_t`: the retained header plus payload copy used for
retransmission on Nak. -/
structure serial_framing_packet_t where
  dataPacket : framing_data_packet_t
  data : List Nat
  deriving DecidableEq, Repr

/-- The engine-owned fields of `serial_data_t` (the receive scratch buffer is
represented by the payload lists returned from the read path). -/
structure serial_data_t where
  isAckNeeded : Bool
  isAckAbortNeeded : Bool
  isBackToBackWrite : Bool
  framingPacket : serial_framing_packet_t
  deriving DecidableEq, Repr

/-- The host link as seen by the engine: protocol state, the unread incoming
byte stream, and the trace of byte-interface `write` calls (one list per
call, in order). -/
structure Link where
  ctx : serial_data_t
  input : List Nat
  output : List (List Nat)
  deriving DecidableEq, Repr

/-- Wire form of a data/command packet header: `[startByte][packetType]`
`[length lo][length hi][crc lo][crc hi]` (little-endian u16 fields). -/
def serializeHeader (p : framing_data_packet_t) : List Nat :=
  [p.startByte, p.packetType, p.length % 256, p.length / 256 % 256,
   p.crc16 % 256, p.crc16 / 256 % 256]

/-- `write_data`: one byte-interface write call; always accepted by the
modelled transport. -/
def write_data (bytes : List Nat) (l : Link) : status_t × Link :=
  (kStatus_Success, { l with output := l.output ++ [bytes] })

/-- `read_data`: consume `n` bytes from the link; an exhausted stream yields
the byte interface failure status. -/
def read_data (n : Nat) (l : Link) : status_t × List Nat × Link :=
  if n ≤ l.input.length then
    (kStatus_Success, l.input.take n, { l with input := l.input.drop n })
  else
    (kStatus_NoReadSource, [], l)

/-- `calculate_framing_crc16`: CRC over every header byte except the crc16
field itself, then over `packet->length` payload bytes. -/
def calculate_framing_crc16 (p : framing_data_packet_t) (data : List Nat) : Nat :=
  crc16_list ([p.startByte, p.packetType, p.length % 256, p.length / 256 % 256]
    ++ data.take p.length)

/-- CRC value of a well-formed packet whose length field equals the payload
length (helper for building concrete wire images). -/
def packetCrc (packetType : Nat) (payload : List Nat) : Nat :=
  crc16_list ([kFramingPacketStartByte, packetType,
    payload.length % 256, payload.length / 256 % 256] ++ payload)

/-- Wire image of a Command/Data packet with an explicit crc16 field. -/
def encodePacket (packetType : Nat) (payload : List Nat) (crc : Nat) : List Nat :=
  [kFramingPacketStartByte, packetType, payload.length % 256,
   payload.length / 256 % 256, crc % 256, crc / 256 % 256] ++ payload

/-- `serial_packet_send_sync`: mark a back-to-back write and emit the two
header bytes of a sync packet. -/
def serial_packet_send_sync (framingPacketType : Nat) (l : Link) : status_t × Link :=
  let l1 : Link := { l with ctx := { l.ctx with isBackToBackWrite := true } }
  write_data [kFramingPacketStartByte, framingPacketType] l1

/-- `serial_send_ping_response`: the guard is the source's
`(!isAckNeeded || !isBackToBackWrite || !isAckAbortNeeded)`, verbatim. -/
def serial_send_ping_response (l : Link) : status_t × Link :=
  if !l.ctx.isAckNeeded || !l.ctx.isBackToBackWrite || !l.ctx.isAckAbortNeeded then
    let (_, l1) := write_data [kFramingPacketStartByte, kFramingPacketType_PingResponse] l
    let (_, l2) := write_data k_PingResponse_bytes l1
    (kStatus_Ping, l2)
  else
    (kStatus_Ping, l)

/-- `send_deferred_ack`. -/
def send_deferred_ack (l : Link) : status_t × Link :=
  if l.ctx.isAckNeeded then
    serial_packet_send_sync kFramingPacketType_Ack
      { l with ctx := { l.ctx with isAckNeeded := false } }
  else if l.ctx.isAckAbortNeeded then
    serial_packet_send_sync kFramingPacketType_AckAbort
      { l with ctx := { l.ctx with isAckAbortNeeded := false } }
  else
    (kStatus_Success, l)

/-- `serial_packet_abort`: requires a pending ack (the source asserts it),
converts it into a pending AckAbort. -/
def serial_packet_abort (l : Link) : Link :=
  { l with ctx := { l.ctx with isAckAbortNeeded := true, isAckNeeded := false } }

/-- `read_start_byte`: scan the stream for the start sentinel; the retry
counter is post-incremented and compared before the sentinel test, exactly as
in the source. Returns the unread remainder of the stream. -/
def read_start_byte_aux : List Nat → Nat → status_t × List Nat
  | [], _ => (kStatus_NoReadSource, [])
  | b :: rest, count =>
    if count > kHostMaxStartByteReadCount then (kStatus_Timeout, rest)
    else if b = kFramingPacketStartByte then (kStatus_Success, rest)
    else read_start_byte_aux rest (count + 1)

/-- `read_header`: start-byte scan followed by the packet-type byte. -/
def read_header (l : Link) : status_t × Nat × Link :=
  match read_start_byte_aux l.input 0 with
  | (kStatus_Success, rest) =>
    let l1 : Link := { l with input := rest }
    match read_data 1 l1 with
    | (kStatus_Success, bytes, l2) => (kStatus_Success, bytes.headD 0, l2)
    | (st, _, l2) => (st, 0, l2)
  | (st, rest) => (st, 0, { l with input := rest })

/-- `read_length` / `read_crc16`: one little-endian u16. -/
def read_u16 (l : Link) : status_t × Nat × Link :=
  match read_data 2 l with
  | (kStatus_Success, bytes, l1) => (kStatus_Success, bytes.headD 0 + 256 * (bytes.getD 1 0), l1)
  | (st, _, l1) => (st, 0, l1)

/-- `read_data_packet`: header, Ping short-circuit, expected-type check,
length (clamped to the incoming buffer), crc16, then the payload bytes. -/
def read_data_packet (packetType : packet_type_t) (l : Link) :
    status_t × framing_data_packet_t × List Nat × Link :=
  match read_header l with
  | (kStatus_Success, t, l1) =>
    if t = kFramingPacketType_Ping then
      let (st, l2) := serial_send_ping_response l1
      (st, default, [], l2)
    else
      let expectedPacketType :=
        if packetType = kPacketType_Command then kFramingPacketType_Command
        else kFramingPacketType_Data
      if t ≠ expectedPacketType then (kStatus_Fail, default, [], l1)
      else
        match read_u16 l1 with
        | (kStatus_Success, len0, l2) =>
          let len := min kIncomingPacketBufferSize len0
          match read_u16 l2 with
          | (kStatus_Success, crc, l3) =>
            let pkt : framing_data_packet_t :=
              ⟨kFramingPacketStartByte, t, len, crc⟩
            if len > 0 then
              match read_data len l3 with
              | (kStatus_Success, payload, l4) => (kStatus_Success, pkt, payload, l4)
              | (st, _, l4) => (st, pkt, [], l4)
            else (kStatus_Success, pkt, [], l3)
          | (st, _, l3) => (st, default, [], l3)
        | (st, _, l2) => (st, default, [], l2)
  | (st, _, l1) => (st, default, [], l1)

/-- The Nak-handling wait loop of `wait_for_ack_packet`; the fuel only makes
the recursion structural, every modelled run consumes at least one input byte
per iteration so `input.length + 1` fuel is never exhausted. -/
def wait_for_ack_packet_aux : Nat → Link → status_t × Link
  | 0, l => (kStatus_NoReadSource, l)
  | fuel + 1, l =>
    match read_header l with
    | (kStatus_Success, t, l1) =>
      if t ≠ kFramingPacketType_Ack ∧ t ≠ kFramingPacketType_Nak ∧
          t ≠ kFramingPacketType_AckAbort then
        (kStatus_InvalidArgument, l1)
      else if t = kFramingPacketType_AckAbort then
        (kStatus_AbortDataPhase, l1)
      else if t = kFramingPacketType_Nak then
        let retained := l1.ctx.framingPacket
        let bytes := serializeHeader retained.dataPacket ++
          retained.data.take retained.dataPacket.length
        match write_data bytes l1 with
        | (kStatus_Success, l2) => wait_for_ack_packet_aux fuel l2
        | (st, l2) => (st, l2)
      else
        (kStatus_Success, l1)
    | (st, _, l1) => (st, l1)

/-- `wait_for_ack_packet`. -/
def wait_for_ack_packet (l : Link) : status_t × Link :=
  wait_for_ack_packet_aux (l.input.length + 1) l

/-- The framing packet `serial_packet_write` builds for a payload. -/
def mkWriteFraming (packetType : packet_type_t) (data : List Nat) :
    framing_data_packet_t :=
  let hdrType := if packetType = kPacketType_Command then kFramingPacketType_Command
    else kFramingPacketType_Data
  let p0 : framing_data_packet_t :=
    ⟨kFramingPacketStartByte, hdrType, data.length, 0⟩
  { p0 with crc16 := calculate_framing_crc16 p0 data }

/-- `serial_packet_write`.  A `none` payload models a null `packet` pointer. -/
def serial_packet_write (packet : Option (List Nat)) (packetType : packet_type_t)
    (l : Link) : status_t × Link :=
  match packet with
  | none => (kStatus_InvalidArgument, l)
  | some data =>
    if data.length > kOutgoingPacketBufferSize then (kStatus_InvalidArgument, l)
    else
      match send_deferred_ack l with
      | (kStatus_Success, l1) =>
        let l2 : Link :=
          if l1.ctx.isBackToBackWrite then
            { l1 with ctx := { l1.ctx with isBackToBackWrite := false } }
          else l1
        let fp := mkWriteFraming packetType data
        let l3 : Link := { l2 with ctx := { l2.ctx with framingPacket := ⟨fp, data⟩ } }
        match write_data (serializeHeader fp ++ data) l3 with
        | (kStatus_Success, l4) => wait_for_ack_packet l4
        | (st, l4) => (st, l4)
      | (st, l1) => (st, l1)

/-- The crc-retry loop of `serial_packet_read`; fuel as in
`wait_for_ack_packet_aux`. -/
def serial_packet_read_loop (packetType : packet_type_t) :
    Nat → Link → status_t × List Nat × Nat × Link
  | 0, l => (kStatus_NoReadSource, [], 0, l)
  | fuel + 1, l =>
    match read_data_packet packetType l with
    | (kStatus_Success, fp, payload, l1) =>
      if fp.crc16 ≠ calculate_framing_crc16 fp payload then
        let (_, l2) := serial_packet_send_sync kFramingPacketType_Nak l1
        serial_packet_read_loop packetType fuel l2
      else
        (kStatus_Success, payload, fp.length,
          { l1 with ctx := { l1.ctx with isAckNeeded := true } })
    | (st, _, _, l1) => (st, [], 0, l1)

/-- `serial_packet_read` (the null checks on the out-pointers are not
modelled; the model always returns payload and length by value). -/
def serial_packet_read (packetType : packet_type_t) (l : Link) :
    status_t × List Nat × Nat × Link :=
  match send_deferred_ack { l with ctx := { l.ctx with isBackToBackWrite := false } } with
  | (kStatus_Success, l1) => serial_packet_read_loop packetType (l1.input.length + 1) l1
  | (st, l1) => (st, [], 0, l1)

/-! ## Slave scheduler connectivity

The slave scheduler itself is external; the embedding only needs the two
`Slaves[...].isConnected` slots that the sources read and write.  The id
values live in the missing `slave_scheduler.h`; only their distinctness
matters. -/

/-- The slave ids referenced by the embedded sources. -/
inductive SlaveId where
  | leftKeyboardHalf
  | leftLedDriver
  | rightLedDriver
  deriving DecidableEq, Repr

/-- `Slaves[id].isConnected`, as a map from slave id to connectivity. -/
def SlavesConnected := SlaveId → Bool

/-- `UhkModuleSlaveDriver_Disconnect`: disconnecting the left keyboard half
marks the left LED driver as not connected. -/
def UhkModuleSlaveDriver_Disconnect (uhkModuleDriverId : SlaveId)
    (slaves : SlavesConnected) : SlavesConnected :=
  if uhkModuleDriverId = SlaveId.leftKeyboardHalf then
    fun i => if i = SlaveId.leftLedDriver then false else slaves i
  else slaves

/-! ## LED driver state machine (`is31fl3731` driver)

`LED_DRIVER_LED_COUNT` and `PMW_REGISTER_UPDATE_CHUNK_SIZE` live in the
missing `is31fl3731.h`; they appear below as parameters `N` and `C`.  All
register constants are modelled (missing header); their values never matter
to the theorems, only the payload shapes do. -/

/-- Modelled from the spec (missing `is31fl3731.h`): first PWM register. -/
def FRAME_REGISTER_PWM_FIRST : Nat := 0x24

/-- Modelled (missing header): frame-select register. -/
def LED_DRIVER_REGISTER_FRAME : Nat := 0xFD

/-- Modelled (missing header): the function ("command") frame id. -/
def LED_DRIVER_FRAME_FUNCTION : Nat := 0x0B

/-- Modelled (missing header): frame 1 id. -/
def LED_DRIVER_FRAME_1 : Nat := 0x00

/-- Modelled (missing header): shutdown register. -/
def LED_DRIVER_REGISTER_SHUTDOWN : Nat := 0x0A

/-- Modelled (missing header): normal shutdown mode value. -/
def SHUTDOWN_MODE_NORMAL : Nat := 0x01

/-- `uint8_t setFunctionFrameBuffer[]`. -/
def setFunctionFrameBuffer : List Nat :=
  [LED_DRIVER_REGISTER_FRAME, LED_DRIVER_FRAME_FUNCTION]

/-- `uint8_t setShutdownModeNormalBuffer[]`. -/
def setShutdownModeNormalBuffer : List Nat :=
  [LED_DRIVER_REGISTER_SHUTDOWN, SHUTDOWN_MODE_NORMAL]

/-- `uint8_t setFrame1Buffer[]`. -/
def setFrame1Buffer : List Nat :=
  [LED_DRIVER_REGISTER_FRAME, LED_DRIVER_FRAME_1]

/-- The LED driver ids (`LedDriverId_Right = 0`, `LedDriverId_Left = 1`). -/
inductive LedDriverId where
  | right
  | left
  deriving DecidableEq, Repr

/-- The phases of `led_driver_phase_t`. -/
inductive LedDriverPhase where
  | SetFunctionFrame
  | SetShutdownModeNormal
  | SetFrame1
  | InitLedControlRegisters
  | InitLedValues
  | Initialized
  deriving DecidableEq, Repr

/-- `led_driver_state_t`: the phase cursor, the rolling led cursor, the
source/target brightness shadows (total functions over led indices; only
indices below `N` are meaningful) and the per-device control-register
command. -/
structure led_driver_state_t where
  phase : LedDriverPhase
  ledIndex : Nat
  sourceLedValues : Nat → Nat
  targetLedValues : Nat → Nat
  i2cAddress : Nat
  setupLedControlRegistersCommand : List Nat

/-- The circular first-difference scan of the `Initialized` phase: probe at
most `count` indices starting at `idx`, wrapping at `N`, and return the first
index where source and target disagree.  Mirrors the source loop
(`for (count=0; count<LED_DRIVER_LED_COUNT; count++) ...`). -/
def scanFirstDiff (src tgt : Nat → Nat) (N idx : Nat) : Nat → Option Nat
  | 0 => none
  | count + 1 =>
    if src idx ≠ tgt idx then some idx
    else scanFirstDiff src tgt N (if idx + 1 ≥ N then 0 else idx + 1) count

/-- The forward scan for the last differing index inside the chunk window:
examine `steps` consecutive indices starting at `idx`, keeping the last
differing one (`e` is the best index found so far). -/
def scanLastDiff (src tgt : Nat → Nat) : Nat → Nat → Nat → Nat
  | e, _, 0 => e
  | e, idx, steps + 1 =>
    scanLastDiff src tgt (if src idx ≠ tgt idx then idx else e) (idx + 1) steps

/-- The `length`-byte slice of the source table starting at `start`. -/
def srcSlice (src : Nat → Nat) (start length : Nat) : List Nat :=
  (List.range length).map fun j => src (start + j)

/-- Overwrite the target shadows on `[start, endIdx]` with the source values
(the `memcpy` into `targetLedValues`). -/
def overwriteRange (tgt src : Nat → Nat) (start endIdx : Nat) : Nat → Nat :=
  fun i => if start ≤ i ∧ i ≤ endIdx then src i else tgt i

/-- `LedSlaveDriver_Update` for table size `N` and chunk size `C`; returns
the new driver state and the byte list handed to `I2cAsyncWrite`, if any. -/
def LedSlaveDriver_Update (N C : Nat) (ledDriverId : LedDriverId)
    (slaves : SlavesConnected) (s : led_driver_state_t) :
    led_driver_state_t × Option (List Nat) :=
  match s.phase with
  | LedDriverPhase.SetFunctionFrame =>
    if ledDriverId = LedDriverId.left ∧ !slaves SlaveId.leftKeyboardHalf then
      (s, none)
    else
      ({ s with phase := LedDriverPhase.SetShutdownModeNormal },
        some setFunctionFrameBuffer)
  | LedDriverPhase.SetShutdownModeNormal =>
    ({ s with phase := LedDriverPhase.SetFrame1 }, some setShutdownModeNormalBuffer)
  | LedDriverPhase.SetFrame1 =>
    ({ s with phase := LedDriverPhase.InitLedControlRegisters }, some setFrame1Buffer)
  | LedDriverPhase.InitLedControlRegisters =>
    ({ s with phase := LedDriverPhase.InitLedValues },
      some s.setupLedControlRegistersCommand)
  | LedDriverPhase.InitLedValues =>
    let bytes := (FRAME_REGISTER_PWM_FIRST + s.ledIndex) ::
      srcSlice s.sourceLedValues s.ledIndex C
    let newIndex := s.ledIndex + C
    if newIndex ≥ N then
      ({ s with ledIndex := 0, phase := LedDriverPhase.Initialized }, some bytes)
    else
      ({ s with ledIndex := newIndex }, some bytes)
  | LedDriverPhase.Initialized =>
    let lastLedChunkStartIndex := N - C
    let startLedIndex0 := min s.ledIndex lastLedChunkStartIndex
    match scanFirstDiff s.sourceLedValues s.targetLedValues N startLedIndex0 N with
    | none => ({ s with ledIndex := 0 }, none)
    | some startLedIndex =>
      let maxChunkSize := min (N - startLedIndex) C
      let endLedIndex := scanLastDiff s.sourceLedValues s.targetLedValues
        startLedIndex startLedIndex maxChunkSize
      let length := endLedIndex - startLedIndex + 1
      let bytes := (FRAME_REGISTER_PWM_FIRST + startLedIndex) ::
        srcSlice s.sourceLedValues startLedIndex length
      let newIndex := s.ledIndex + length
      ({ s with
          targetLedValues :=
            overwriteRange s.targetLedValues s.sourceLedValues startLedIndex endLedIndex,
          ledIndex := if newIndex ≥ N then 0 else newIndex },
        some bytes)

/-- The state part of one `LedSlaveDriver_Update` call. -/
def ledStep (N C : Nat) (ledDriverId : LedDriverId) (slaves : SlavesConnected)
    (s : led_driver_state_t) : led_driver_state_t :=
  (LedSlaveDriver_Update N C ledDriverId slaves s).1

/-- `k` successive `LedSlaveDriver_Update` calls (state part). -/
def ledIter (N C : Nat) (ledDriverId : LedDriverId) (slaves : SlavesConnected) :
    Nat → led_driver_state_t → led_driver_state_t
  | 0, s => s
  | k + 1, s => ledIter N C ledDriverId slaves k (ledStep N C ledDriverId slaves s)

/-- Target equals source on every meaningful index. -/
def ledConverged (N : Nat) (s : led_driver_state_t) : Prop :=
  ∀ i, i < N → s.targetLedValues i = s.sourceLedValues i

instance (N : Nat) (s : led_driver_state_t) : Decidable (ledConverged N s) :=
  Nat.decidableBallLT N fun i _ => s.targetLedValues i = s.sourceLedValues i

/-! ## UHK module driver state machine -/

/-- Modelled (missing newer `slave_protocol.h` revision): the command codes
used by `uhk_module_driver.c`; only distinctness matters. -/
def SlaveCommand_RequestProperty : Nat := 0

/-- Modelled (missing header). -/
def SlaveProperty_Features : Nat := 0

/-- Modelled (missing header). -/
def SlaveCommand_RequestKeyStates : Nat := 1

/-- Modelled (missing header). -/
def SlaveCommand_SetTestLed : Nat := 2

/-- Modelled (missing header). -/
def SlaveCommand_SetLedPwmBrightness : Nat := 3

/-- `uhk_module_phase_t`. -/
inductive uhk_module_phase_t where
  | RequestModuleFeatures
  | ReceiveModuleFeatures
  | ProcessModuleFeatures
  | RequestKeyStates
  | ReceiveKeystates
  | ProcessKeystates
  | SetTestLed
  | SetLedPwmBrightness
  deriving DecidableEq, Repr

/-- `uhk_module_vars_t`. -/
structure uhk_module_vars_t where
  isTestLedOn : Bool
  ledPwmBrightness : Nat
  deriving DecidableEq, Repr

/-- Modelled (missing `uhk_module_driver.h`): the capability descriptor; the
embedded code only reads `keyCount`. -/
structure uhk_module_features_t where
  keyCount : Nat
  deriving DecidableEq, Repr

/-- An I2C message: data bytes, used length, crc (`i2c_message_t`). -/
structure i2c_message_t where
  data : List Nat
  length : Nat
  crc : Nat
  deriving DecidableEq, Repr

/-- Modelled from the spec: `CRC16_IsMessageValid` from the missing
`crc16.h`, checking the message crc over its used bytes. -/
def CRC16_IsMessageValid (m : i2c_message_t) : Bool :=
  crc16_list (m.data.take m.length) = m.crc

/-- Modelled from the spec: `BoolBitsToBytes` unpacks `n` bits of a
bit-packed byte array, least-significant bit first, into booleans. -/
def BoolBitsToBytes (bytes : List Nat) (n : Nat) : List Bool :=
  (List.range n).map fun i => (bytes.getD (i / 8) 0) / 2 ^ (i % 8) % 2 = 1

/-- `uhk_module_state_t` (the fields the embedded code touches). -/
structure uhk_module_state_t where
  phase : uhk_module_phase_t
  targetVars : uhk_module_vars_t
  features : uhk_module_features_t
  rxMessage : i2c_message_t
  firmwareI2cAddress : Nat
  deriving DecidableEq, Repr

/-- The observable outcome of one `UhkModuleSlaveDriver_Update` invocation:
the returned status, the staged `txMessage` data if a transfer was issued,
the slot write into `CurrentKeyStates` if one happened, and the new driver
state. -/
structure uhk_update_result where
  status : status_t
  tx : Option (List Nat)
  keyWrite : Option (Nat × List Bool)
  state : uhk_module_state_t

/-- `UhkModuleSlaveDriver_Update`.  `sourceVars` is
`UhkModuleVars[uhkModuleDriverId]` (mutated only by external producers),
`incoming` is the message an `I2cAsyncReadMessage` of this tick deposits in
`rxMessage`. -/
def UhkModuleSlaveDriver_Update (uhkModuleDriverId : Nat)
    (sourceVars : uhk_module_vars_t) (incoming : i2c_message_t)
    (s : uhk_module_state_t) : uhk_update_result :=
  match s.phase with
  | uhk_module_phase_t.RequestModuleFeatures =>
    { status := kStatus_Success,
      tx := some [SlaveCommand_RequestProperty, SlaveProperty_Features],
      keyWrite := none,
      state := { s with phase := uhk_module_phase_t.ReceiveModuleFeatures } }
  | uhk_module_phase_t.ReceiveModuleFeatures =>
    { status := kStatus_Success, tx := none, keyWrite := none,
      state := { s with
        rxMessage := incoming,
        phase := uhk_module_phase_t.ProcessModuleFeatures } }
  | uhk_module_phase_t.ProcessModuleFeatures =>
    let newFeatures :=
      if CRC16_IsMessageValid s.rxMessage then
        { keyCount := s.rxMessage.data.getD 0 0 }
      else s.features
    { status := kStatus_Uhk_NoTransfer, tx := none, keyWrite := none,
      state := { s with
        features := newFeatures,
        phase := uhk_module_phase_t.RequestKeyStates } }
  | uhk_module_phase_t.RequestKeyStates =>
    { status := kStatus_Success, tx := some [SlaveCommand_RequestKeyStates],
      keyWrite := none,
      state := { s with phase := uhk_module_phase_t.ReceiveKeystates } }
  | uhk_module_phase_t.ReceiveKeystates =>
    { status := kStatus_Success, tx := none, keyWrite := none,
      state := { s with
        rxMessage := incoming,
        phase := uhk_module_phase_t.ProcessKeystates } }
  | uhk_module_phase_t.ProcessKeystates =>
    let kw :=
      if CRC16_IsMessageValid s.rxMessage then
        some (uhkModuleDriverId + 1,
          BoolBitsToBytes s.rxMessage.data s.features.keyCount)
      else none
    { status := kStatus_Uhk_NoTransfer, tx := none, keyWrite := kw,
      state := { s with phase := uhk_module_phase_t.SetTestLed } }
  | uhk_module_phase_t.SetTestLed =>
    if sourceVars.isTestLedOn = s.targetVars.isTestLedOn then
      { status := kStatus_Uhk_NoTransfer, tx := none, keyWrite := none,
        state := { s with phase := uhk_module_phase_t.SetLedPwmBrightness } }
    else
      { status := kStatus_Success,
        tx := some [SlaveCommand_SetTestLed, if sourceVars.isTestLedOn then 1 else 0],
        keyWrite := none,
        state := { s with
          targetVars := { s.targetVars with isTestLedOn := sourceVars.isTestLedOn },
          phase := uhk_module_phase_t.SetLedPwmBrightness } }
  | uhk_module_phase_t.SetLedPwmBrightness =>
    if sourceVars.ledPwmBrightness = s.targetVars.ledPwmBrightness then
      { status := kStatus_Uhk_NoTransfer, tx := none, keyWrite := none,
        state := { s with phase := uhk_module_phase_t.RequestKeyStates } }
    else
      { status := kStatus_Success,
        tx := some [SlaveCommand_SetLedPwmBrightness, sourceVars.ledPwmBrightness],
        keyWrite := none,
        state := { s with
          targetVars := { s.targetVars with
            ledPwmBrightness := sourceVars.ledPwmBrightness },
          phase := uhk_module_phase_t.RequestKeyStates } }

/-! ## Basic facts about the CRC model -/

theorem crcShift_lt (x : Nat) : crcShift x < 65536 := by
  have h65536 : (65536 : Nat) = 2 ^ 16 := by norm_num
  unfold crcShift
  split
  · rw [h65536]
    apply Nat.xor_lt_two_pow
    · rw [← h65536]; exact Nat.mod_lt _ (by omega)
    · rw [← h65536]; omega
  · exact Nat.mod_lt _ (by omega)

theorem crc16_update_byte_lt (c b : Nat) : crc16_update_byte c b < 65536 := by
  have h : crc16_update_byte c b =
      crcShift (Nat.iterate crcShift 7 (c ^^^ ((b % 256) * 256))) :=
    Function.iterate_succ_apply' crcShift 7 _
  rw [h]
  exact crcShift_lt _

theorem crc16_foldl_lt (l : List Nat) : ∀ c, c < 65536 →
    l.foldl crc16_update_byte c < 65536 := by
  induction l with
  | nil => intro c hc; simpa using hc
  | cons b t ih =>
    intro c _
    rw [List.foldl_cons]
    exact ih _ (crc16_update_byte_lt c b)

theorem crc16_list_lt (l : List Nat) : crc16_list l < 65536 :=
  crc16_foldl_lt l 0 (by omega)

theorem packetCrc_lt (t : Nat) (pl : List Nat) : packetCrc t pl < 65536 :=
  crc16_list_lt _

/-- The crc the read path recomputes for a packet whose length field equals
its payload length is `packetCrc`. -/
theorem calculate_eq_packetCrc (t c : Nat) (pl : List Nat) :
    calculate_framing_crc16 ⟨kFramingPacketStartByte, t, pl.length, c⟩ pl =
      packetCrc t pl := by
  simp [calculate_framing_crc16, packetCrc, List.take_length]

/-! ## Execution lemmas for the framing engine -/

theorem read_header_at_sync (l : Link) (t : Nat) (rest : List Nat)
    (hin : l.input = 0x5A :: t :: rest) :
    read_header l = (kStatus_Success, t, { l with input := rest }) := by
  obtain ⟨ctx, input, output⟩ := l
  simp only [Link.mk.injEq] at hin ⊢
  subst hin
  simp [read_header, read_start_byte_aux, read_data, kHostMaxStartByteReadCount,
    kFramingPacketStartByte]

theorem read_u16_at (l : Link) (a b : Nat) (rest : List Nat)
    (hin : l.input = a :: b :: rest) :
    read_u16 l = (kStatus_Success, a + 256 * b, { l with input := rest }) := by
  obtain ⟨ctx, input, output⟩ := l
  simp only [Link.mk.injEq] at hin
  subst hin
  simp [read_u16, read_data]

theorem read_data_at (l : Link) (pl rest : List Nat)
    (hin : l.input = pl ++ rest) :
    read_data pl.length l = (kStatus_Success, pl, { l with input := rest }) := by
  obtain ⟨ctx, input, output⟩ := l
  simp only [Link.mk.injEq] at hin
  subst hin
  have h1 : pl.length ≤ (pl ++ rest).length := by simp
  simp [read_data, h1, List.take_left, List.drop_left]

/-- `read_data_packet` on a wire image of an expected-type packet. -/
theorem read_data_packet_encode (pt : packet_type_t) (tw c : Nat)
    (pl rest : List Nat) (l : Link)
    (htw : tw = if pt = kPacketType_Command then kFramingPacketType_Command
      else kFramingPacketType_Data)
    (hlen : pl.length ≤ kIncomingPacketBufferSize) (hc : c < 65536)
    (hin : l.input = encodePacket tw pl c ++ rest) :
    read_data_packet pt l =
      (kStatus_Success, ⟨kFramingPacketStartByte, tw, pl.length, c⟩, pl,
        { l with input := rest }) := by
  have hping : tw ≠ kFramingPacketType_Ping := by
    rcases pt <;> simp_all [kFramingPacketType_Command, kFramingPacketType_Data,
      kFramingPacketType_Ping]
  have hexp : tw = (if pt = kPacketType_Command then kFramingPacketType_Command
      else kFramingPacketType_Data) := htw
  have hhdr : read_header l = (kStatus_Success, tw,
      { l with input := pl.length % 256 :: pl.length / 256 % 256 ::
        c % 256 :: c / 256 % 256 :: (pl ++ rest) }) := by
    apply read_header_at_sync
    simpa [encodePacket, kFramingPacketStartByte] using hin
  have hlen32 : pl.length ≤ 32 := by
    simpa [kIncomingPacketBufferSize] using hlen
  have hlenval : pl.length % 256 + 256 * (pl.length / 256 % 256) = pl.length := by
    omega
  have hcval : c % 256 + 256 * (c / 256 % 256) = c := by omega
  have hmin : min kIncomingPacketBufferSize pl.length = pl.length := by
    simp [kIncomingPacketBufferSize]; omega
  have hu1 : read_u16 { l with input := pl.length % 256 :: pl.length / 256 % 256 ::
      c % 256 :: c / 256 % 256 :: (pl ++ rest) } =
      (kStatus_Success, pl.length,
        { l with input := c % 256 :: c / 256 % 256 :: (pl ++ rest) }) := by
    rw [read_u16_at _ _ _ _ rfl, hlenval]
  have hu2 : read_u16 { l with input := c % 256 :: c / 256 % 256 :: (pl ++ rest) } =
      (kStatus_Success, c, { l with input := pl ++ rest }) := by
    rw [read_u16_at _ _ _ _ rfl, hcval]
  unfold read_data_packet
  rw [hhdr]
  simp only [hping, if_false, ← hexp, if_neg (by simp : ¬ tw ≠ tw), hu1, hmin, hu2]
  by_cases hp : 0 < pl.length
  · rw [if_pos hp, read_data_at _ pl rest rfl]
  · have hnil : pl = [] := List.eq_nil_of_length_eq_zero (by omega)
    subst hnil
    simp

/-- The byte sequence `wait_for_ack_packet` retransmits on Nak: the retained
framing packet, serialized exactly like the original transmission. -/
def retainedWire (c : serial_data_t) : List Nat :=
  serializeHeader c.framingPacket.dataPacket ++
    c.framingPacket.data.take c.framingPacket.dataPacket.length

/-- The wire image `serial_packet_write` transmits for a payload. -/
def writeWire (packetType : packet_type_t) (data : List Nat) : List Nat :=
  serializeHeader (mkWriteFraming packetType data) ++ data

/-- The wire image of `k` Nak sync packets. -/
def nakStream : Nat → List Nat
  | 0 => []
  | k + 1 => 0x5A :: 0xA2 :: nakStream k

theorem nakStream_length (k : Nat) : (nakStream k).length = 2 * k := by
  induction k with
  | zero => rfl
  | succ k ih => simp [nakStream, ih]; omega

theorem wait_for_ack_aux_stops (t : Nat) (fuel : Nat) (l : Link) (rest : List Nat)
    (hin : l.input = 0x5A :: t :: rest) (hfuel : 1 ≤ fuel)
    (ht : t = kFramingPacketType_Ack ∨ t = kFramingPacketType_AckAbort) :
    wait_for_ack_packet_aux fuel l =
      ((if t = kFramingPacketType_AckAbort then kStatus_AbortDataPhase
        else kStatus_Success), { l with input := rest }) := by
  rcases fuel with _ | fuel
  · omega
  · unfold wait_for_ack_packet_aux
    rw [read_header_at_sync l t rest hin]
    rcases ht with h | h <;>
      simp [h, kFramingPacketType_Ack, kFramingPacketType_Nak,
        kFramingPacketType_AckAbort]

theorem wait_for_ack_aux_naks (k : Nat) : ∀ (fuel : Nat) (l : Link) (rest : List Nat),
    l.input = nakStream k ++ 0x5A :: 0xA1 :: rest → k + 1 ≤ fuel →
    wait_for_ack_packet_aux fuel l =
      (kStatus_Success,
        { l with input := rest,
                 output := l.output ++ List.replicate k (retainedWire l.ctx) }) := by
  induction k with
  | zero =>
    intro fuel l rest hin hfuel
    rw [wait_for_ack_aux_stops 0xA1 fuel l rest (by simpa [nakStream] using hin)
      hfuel (Or.inl rfl)]
    simp [kFramingPacketType_AckAbort, kFramingPacketType_Ack]
  | succ k ih =>
    intro fuel l rest hin hfuel
    rcases fuel with _ | fuel
    · omega
    unfold wait_for_ack_packet_aux
    rw [read_header_at_sync l 0xA2 (nakStream k ++ 0x5A :: 0xA1 :: rest)
      (by simpa [nakStream] using hin)]
    simp only [kFramingPacketType_Ack, kFramingPacketType_Nak,
      kFramingPacketType_AckAbort, write_data]
    norm_num
    rw [ih fuel _ rest (by simp) (by omega)]
    simp [retainedWire, List.replicate_succ]

/-- `send_deferred_ack` is a no-op on an idle link. -/
theorem send_deferred_ack_idle (l : Link) (hack : l.ctx.isAckNeeded = false)
    (hab : l.ctx.isAckAbortNeeded = false) :
    send_deferred_ack l = (kStatus_Success, l) := by
  simp [send_deferred_ack, hack, hab]

/-- Symbolic execution of `serial_packet_write` on an idle link up to the
acknowledgement wait. -/
theorem serial_packet_write_idle (data : List Nat) (pt : packet_type_t) (l : Link)
    (hack : l.ctx.isAckNeeded = false) (hab : l.ctx.isAckAbortNeeded = false)
    (hb2b : l.ctx.isBackToBackWrite = false)
    (hlen : data.length ≤ kOutgoingPacketBufferSize) :
    serial_packet_write (some data) pt l =
      wait_for_ack_packet
        { l with
            ctx := { l.ctx with framingPacket := ⟨mkWriteFraming pt data, data⟩ },
            output := l.output ++ [writeWire pt data] } := by
  have hlen2 : ¬ data.length > kOutgoingPacketBufferSize := by omega
  simp only [serial_packet_write, hlen2, if_false, send_deferred_ack_idle l hack hab,
    hb2b, Bool.false_eq_true, write_data, writeWire]

theorem retainedWire_mkWrite (c : serial_data_t) (pt : packet_type_t)
    (data : List Nat) :
    retainedWire { c with framingPacket := ⟨mkWriteFraming pt data, data⟩ } =
      writeWire pt data := by
  simp [retainedWire, writeWire, mkWriteFraming, List.take_length]

theorem encodePacket_length (t : Nat) (pl : List Nat) (c : Nat) :
    (encodePacket t pl c).length = 6 + pl.length := by
  simp [encodePacket]
  omega

/-- One crc-mismatch pass of the read loop: emit a Nak and retry. -/
theorem read_loop_mismatch_step (pt : packet_type_t) (tw c1 : Nat)
    (pl1 tail : List Nat) (fuel : Nat) (l : Link)
    (htw : tw = if pt = kPacketType_Command then kFramingPacketType_Command
      else kFramingPacketType_Data)
    (hlen : pl1.length ≤ kIncomingPacketBufferSize) (hclt : c1 < 65536)
    (hc : c1 ≠ packetCrc tw pl1)
    (hin : l.input = encodePacket tw pl1 c1 ++ tail) :
    serial_packet_read_loop pt (fuel + 1) l =
      serial_packet_read_loop pt fuel
        { l with input := tail,
                 ctx := { l.ctx with isBackToBackWrite := true },
                 output := l.output ++ [[0x5A, 0xA2]] } := by
  conv_lhs => unfold serial_packet_read_loop
  rw [read_data_packet_encode pt tw c1 pl1 tail l htw hlen hclt hin]
  simp only [calculate_eq_packetCrc]
  rw [if_pos hc]
  rfl

/-- A crc-valid expected packet ends the read loop: the ack-needed flag is
set and the payload and its length are returned. -/
theorem read_loop_good (pt : packet_type_t) (tw : Nat) (pl rest : List Nat)
    (fuel : Nat) (l : Link)
    (htw : tw = if pt = kPacketType_Command then kFramingPacketType_Command
      else kFramingPacketType_Data)
    (hlen : pl.length ≤ kIncomingPacketBufferSize) (hfuel : 1 ≤ fuel)
    (hin : l.input = encodePacket tw pl (packetCrc tw pl) ++ rest) :
    serial_packet_read_loop pt fuel l =
      (kStatus_Success, pl, pl.length,
        { l with input := rest, ctx := { l.ctx with isAckNeeded := true } }) := by
  rcases fuel with _ | fuel
  · omega
  conv_lhs => unfold serial_packet_read_loop
  rw [read_data_packet_encode pt tw (packetCrc tw pl) pl rest l htw hlen
    (packetCrc_lt _ _) hin]
  dsimp only
  rw [calculate_eq_packetCrc]
  rw [if_neg (show ¬ packetCrc tw pl ≠ packetCrc tw pl from fun h => h rfl)]

/-- `serial_packet_read` on an idle link holding one crc-valid expected
packet. -/
theorem serial_packet_read_good (pt : packet_type_t) (tw : Nat)
    (pl rest : List Nat) (l : Link)
    (htw : tw = if pt = kPacketType_Command then kFramingPacketType_Command
      else kFramingPacketType_Data)
    (hack : l.ctx.isAckNeeded = false) (hab : l.ctx.isAckAbortNeeded = false)
    (hlen : pl.length ≤ kIncomingPacketBufferSize)
    (hin : l.input = encodePacket tw pl (packetCrc tw pl) ++ rest) :
    serial_packet_read pt l =
      (kStatus_Success, pl, pl.length,
        { l with input := rest,
                 ctx := { l.ctx with isAckNeeded := true,
                                     isBackToBackWrite := false } }) := by
  have hda : send_deferred_ack { l with ctx := { l.ctx with isBackToBackWrite := false } } =
      (kStatus_Success, { l with ctx := { l.ctx with isBackToBackWrite := false } }) :=
    send_deferred_ack_idle _ hack hab
  have hloop := read_loop_good pt tw pl rest
    (({ l with ctx := { l.ctx with isBackToBackWrite := false } } : Link).input.length + 1)
    { l with ctx := { l.ctx with isBackToBackWrite := false } } htw hlen (by omega) hin
  unfold serial_packet_read
  rw [hda]
  show serial_packet_read_loop pt
    (({ l with ctx := { l.ctx with isBackToBackWrite := false } } : Link).input.length + 1)
    { l with ctx := { l.ctx with isBackToBackWrite := false } } = _
  rw [hloop]

/-- `send_deferred_ack` on a link with a pending acknowledgement emits the
Ack sync packet first. -/
theorem send_deferred_ack_pending (l : Link) (hack : l.ctx.isAckNeeded = true) :
    send_deferred_ack l =
      (kStatus_Success,
        { l with ctx := { l.ctx with isAckNeeded := false, isBackToBackWrite := true },
                 output := l.output ++ [[0x5A, 0xA1]] }) := by
  simp [send_deferred_ack, hack, serial_packet_send_sync, write_data,
    kFramingPacketStartByte, kFramingPacketType_Ack]

/-! ## Claim C2: Nak-retry retransmits the identical wire image -/

/-- Claim C2: if an idle-link `write_packet` transmission is answered by `k`
Naks and then an Ack, the engine performs `k + 1` wire transmissions of the
identical retained framing packet and the call returns success. -/
theorem claim_C2_nak_retry (k : Nat) (data : List Nat) (pt : packet_type_t)
    (l : Link) (rest : List Nat)
    (hack : l.ctx.isAckNeeded = false) (hab : l.ctx.isAckAbortNeeded = false)
    (hb2b : l.ctx.isBackToBackWrite = false)
    (hlen : data.length ≤ kOutgoingPacketBufferSize)
    (hin : l.input = nakStream k ++ 0x5A :: 0xA1 :: rest) :
    serial_packet_write (some data) pt l =
      (kStatus_Success,
        { l with
            ctx := { l.ctx with framingPacket := ⟨mkWriteFraming pt data, data⟩ },
            input := rest,
            output := l.output ++ List.replicate (k + 1) (writeWire pt data) }) := by
  rw [serial_packet_write_idle data pt l hack hab hb2b hlen]
  unfold wait_for_ack_packet
  rw [wait_for_ack_aux_naks k _ _ rest (by simpa using hin)
    (by simp [hin, nakStream_length]; omega)]
  rw [retainedWire_mkWrite]
  simp [List.replicate_succ, List.append_assoc]

theorem claim_C2_witness :
    (serial_packet_write (some [1, 2, 3]) kPacketType_Data
      { ctx := { isAckNeeded := false, isAckAbortNeeded := false,
                 isBackToBackWrite := false, framingPacket := ⟨⟨0, 0, 0, 0⟩, []⟩ },
        input := nakStream 2 ++ 0x5A :: 0xA1 :: [], output := [] }).1 =
      kStatus_Success := by
  rw [claim_C2_nak_retry 2 [1, 2, 3] kPacketType_Data _ [] rfl rfl rfl
    (by decide) rfl]

/-! ## Claim C7: AckAbort aborts the write without retransmission -/

/-- Claim C7: if an idle-link `write_packet` transmission is answered by an
AckAbort sync packet, the call fails with the data-phase abort status and the
output trace shows exactly the one original transmission, no retransmission. -/
theorem claim_C7_ackabort (data : List Nat) (pt : packet_type_t)
    (l : Link) (rest : List Nat)
    (hack : l.ctx.isAckNeeded = false) (hab : l.ctx.isAckAbortNeeded = false)
    (hb2b : l.ctx.isBackToBackWrite = false)
    (hlen : data.length ≤ kOutgoingPacketBufferSize)
    (hin : l.input = 0x5A :: 0xA3 :: rest) :
    serial_packet_write (some data) pt l =
      (kStatus_AbortDataPhase,
        { l with
            ctx := { l.ctx with framingPacket := ⟨mkWriteFraming pt data, data⟩ },
            input := rest,
            output := l.output ++ [writeWire pt data] }) := by
  rw [serial_packet_write_idle data pt l hack hab hb2b hlen]
  unfold wait_for_ack_packet
  rw [wait_for_ack_aux_stops 0xA3 _ _ rest (by simpa using hin) (by omega)
    (Or.inr rfl)]
  simp [kFramingPacketType_AckAbort]

theorem claim_C7_witness :
    (serial_packet_write (some [7]) kPacketType_Data
      { ctx := { isAckNeeded := false, isAckAbortNeeded := false,
                 isBackToBackWrite := false, framingPacket := ⟨⟨0, 0, 0, 0⟩, []⟩ },
        input := [0x5A, 0xA3], output := [] }) =
      (kStatus_AbortDataPhase,
        { ctx := { isAckNeeded := false, isAckAbortNeeded := false,
                   isBackToBackWrite := false,
                   framingPacket := ⟨mkWriteFraming kPacketType_Data [7], [7]⟩ },
          input := [], output := [writeWire kPacketType_Data [7]] }) := by
  rw [claim_C7_ackabort [7] kPacketType_Data _ [] rfl rfl rfl (by decide) rfl]
  rfl

/-! ## Claim C10: invalid write arguments are rejected before any effect -/

/-- Claim C10: `write_packet` with a null payload pointer or an oversized
byte count returns the invalid-argument error with the link completely
untouched: nothing is transmitted and the whole session state is unchanged. -/
theorem claim_C10_invalid_args (packet : Option (List Nat)) (pt : packet_type_t)
    (l : Link)
    (h : packet = none ∨
      ∃ data, packet = some data ∧ data.length > kOutgoingPacketBufferSize) :
    serial_packet_write packet pt l = (kStatus_InvalidArgument, l) := by
  rcases h with h | ⟨data, h, hlen⟩ <;> subst h
  · rfl
  · simp [serial_packet_write, hlen]

theorem claim_C10_witness :
    serial_packet_write none kPacketType_Command
      { ctx := { isAckNeeded := false, isAckAbortNeeded := false,
                 isBackToBackWrite := false, framingPacket := ⟨⟨0, 0, 0, 0⟩, []⟩ },
        input := [], output := [] } =
      (kStatus_InvalidArgument,
        { ctx := { isAckNeeded := false, isAckAbortNeeded := false,
                   isBackToBackWrite := false, framingPacket := ⟨⟨0, 0, 0, 0⟩, []⟩ },
          input := [], output := [] }) :=
  claim_C10_invalid_args none kPacketType_Command _ (Or.inl rfl)

/-! ## Claim C4: the ping-response idle guard -/

/-- Claim C4 (code bug): with an acknowledgement pending
(`isAckNeeded = true`, the other flags clear) `serial_send_ping_response`
still transmits the ping-response record, because the source guard
`(!isAckNeeded || !isBackToBackWrite || !isAckAbortNeeded)` is a disjunction
of the negated flags: it only suppresses the reply when all three flags are
set at once, contradicting the source's own `Only reply if we're in an idle
state` comment and the spec. -/
theorem claim_C4_code_bug :
    (serial_send_ping_response
      { ctx := { isAckNeeded := true, isAckAbortNeeded := false,
                 isBackToBackWrite := false, framingPacket := ⟨⟨0, 0, 0, 0⟩, []⟩ },
        input := [], output := [] }).2.output =
      [[0x5A, 0xA7], k_PingResponse_bytes] ∧
    (serial_send_ping_response
      { ctx := { isAckNeeded := true, isAckAbortNeeded := false,
                 isBackToBackWrite := false, framingPacket := ⟨⟨0, 0, 0, 0⟩, []⟩ },
        input := [], output := [] }).1 = kStatus_Ping := by
  constructor <;> rfl

/-! ## Claim C5: crc mismatch is Nak-and-retry, invisible to the caller -/

/-- The wire image of a crc-valid Command packet. -/
def goodCommandWire (pl : List Nat) : List Nat :=
  encodePacket kFramingPacketType_Command pl (packetCrc kFramingPacketType_Command pl)

/-- Claim C5: a received packet whose crc16 field differs from the crc
recomputed over the header-minus-crc plus payload makes the engine emit a Nak
and retry the whole read internally; the call returns a payload only for a
matching crc, and then it sets the ack-needed flag and returns the payload
and its length. -/
theorem claim_C5_crc_retry (pl1 pl2 rest : List Nat) (c1 : Nat) (l : Link)
    (hack : l.ctx.isAckNeeded = false) (hab : l.ctx.isAckAbortNeeded = false)
    (hl1 : pl1.length ≤ kIncomingPacketBufferSize)
    (hl2 : pl2.length ≤ kIncomingPacketBufferSize)
    (hc1lt : c1 < 65536) (hc1 : c1 ≠ packetCrc kFramingPacketType_Command pl1)
    (hin : l.input = encodePacket kFramingPacketType_Command pl1 c1 ++
      (goodCommandWire pl2 ++ rest)) :
    serial_packet_read kPacketType_Command l =
      (kStatus_Success, pl2, pl2.length,
        { l with input := rest,
                 ctx := { l.ctx with isAckNeeded := true, isBackToBackWrite := true },
                 output := l.output ++ [[0x5A, 0xA2]] }) := by
  have hda : send_deferred_ack
      { l with ctx := { l.ctx with isBackToBackWrite := false } } =
      (kStatus_Success, { l with ctx := { l.ctx with isBackToBackWrite := false } }) :=
    send_deferred_ack_idle _ hack hab
  unfold serial_packet_read
  rw [hda]
  show serial_packet_read_loop kPacketType_Command
    (({ l with ctx := { l.ctx with isBackToBackWrite := false } } : Link).input.length + 1)
    { l with ctx := { l.ctx with isBackToBackWrite := false } } = _
  rw [read_loop_mismatch_step kPacketType_Command kFramingPacketType_Command c1 pl1
    (goodCommandWire pl2 ++ rest)
    (({ l with ctx := { l.ctx with isBackToBackWrite := false } } : Link).input.length)
    { l with ctx := { l.ctx with isBackToBackWrite := false } }
    rfl hl1 hc1lt hc1 hin]
  rw [read_loop_good kPacketType_Command kFramingPacketType_Command pl2 rest
    (({ l with ctx := { l.ctx with isBackToBackWrite := false } } : Link).input.length)
    { l with
        input := goodCommandWire pl2 ++ rest,
        ctx := { l.ctx with isBackToBackWrite := true },
        output := l.output ++ [[0x5A, 0xA2]] }
    rfl hl2
    (by simp only [hin, List.length_append, encodePacket_length]; omega) rfl]

theorem claim_C5_witness :
    (serial_packet_read kPacketType_Command
      { ctx := { isAckNeeded := false, isAckAbortNeeded := false,
                 isBackToBackWrite := false, framingPacket := ⟨⟨0, 0, 0, 0⟩, []⟩ },
        input := encodePacket kFramingPacketType_Command [9] 0 ++
          (goodCommandWire [1, 2, 3, 4] ++ []),
        output := [] }).1 = kStatus_Success := by
  rw [claim_C5_crc_retry [9] [1, 2, 3, 4] [] 0 _ rfl rfl (by decide) (by decide)
    (by decide) (by set_option maxRecDepth 10000 in decide) rfl]

/-! ## Claim C3: a Ping is answered but surfaces to the caller -/

/-- `read_data_packet` on a Ping header: the engine synchronously writes the
ping response (the pending-ack guard passes because no ack is pending) and
the Ping status is returned. -/
theorem read_data_packet_ping (pt : packet_type_t) (l : Link) (tail : List Nat)
    (hack : l.ctx.isAckNeeded = false)
    (hin : l.input = 0x5A :: 0xA6 :: tail) :
    read_data_packet pt l =
      (kStatus_Ping, default, [],
        { l with input := tail,
                 output := l.output ++ [[0x5A, 0xA7], k_PingResponse_bytes] }) := by
  unfold read_data_packet
  rw [read_header_at_sync l 0xA6 tail hin]
  dsimp only
  rw [if_pos (show (0xA6 : Nat) = kFramingPacketType_Ping from rfl)]
  simp [serial_send_ping_response, hack, write_data, kFramingPacketStartByte,
    kFramingPacketType_PingResponse]

/-- `serial_packet_read` on a Ping header: the ping response is transmitted
and the call returns the Ping status with no payload, leaving the rest of the
stream unread. -/
theorem serial_packet_read_ping (pt : packet_type_t) (l : Link) (tail : List Nat)
    (hack : l.ctx.isAckNeeded = false) (hab : l.ctx.isAckAbortNeeded = false)
    (hin : l.input = 0x5A :: 0xA6 :: tail) :
    serial_packet_read pt l =
      (kStatus_Ping, [], 0,
        { l with input := tail,
                 ctx := { l.ctx with isBackToBackWrite := false },
                 output := l.output ++ [[0x5A, 0xA7], k_PingResponse_bytes] }) := by
  have hda : send_deferred_ack
      { l with ctx := { l.ctx with isBackToBackWrite := false } } =
      (kStatus_Success, { l with ctx := { l.ctx with isBackToBackWrite := false } }) :=
    send_deferred_ack_idle _ hack hab
  unfold serial_packet_read
  rw [hda]
  show serial_packet_read_loop pt
    (({ l with ctx := { l.ctx with isBackToBackWrite := false } } : Link).input.length + 1)
    { l with ctx := { l.ctx with isBackToBackWrite := false } } = _
  conv_lhs => unfold serial_packet_read_loop
  rw [read_data_packet_ping pt
    { l with ctx := { l.ctx with isBackToBackWrite := false } } tail hack hin]

/-- Claim C3 fails on the code: with a Ping followed by a crc-valid Command
packet waiting on the link, `read_packet` transmits the ping response but
then surfaces `kStatus_Ping` to the caller with an empty payload instead of
resuming the scan and returning the Command packet. -/
theorem claim_C3_counterexample :
    (serial_packet_read kPacketType_Command
      { ctx := { isAckNeeded := false, isAckAbortNeeded := false,
                 isBackToBackWrite := false, framingPacket := ⟨⟨0, 0, 0, 0⟩, []⟩ },
        input := 0x5A :: 0xA6 :: (goodCommandWire [1, 2, 3, 4] ++ []),
        output := [] }).1 = kStatus_Ping ∧
    (serial_packet_read kPacketType_Command
      { ctx := { isAckNeeded := false, isAckAbortNeeded := false,
                 isBackToBackWrite := false, framingPacket := ⟨⟨0, 0, 0, 0⟩, []⟩ },
        input := 0x5A :: 0xA6 :: (goodCommandWire [1, 2, 3, 4] ++ []),
        output := [] }).1 ≠ kStatus_Success ∧
    (serial_packet_read kPacketType_Command
      { ctx := { isAckNeeded := false, isAckAbortNeeded := false,
                 isBackToBackWrite := false, framingPacket := ⟨⟨0, 0, 0, 0⟩, []⟩ },
        input := 0x5A :: 0xA6 :: (goodCommandWire [1, 2, 3, 4] ++ []),
        output := [] }).2.1 = [] := by
  rw [serial_packet_read_ping kPacketType_Command _ _ rfl rfl rfl]
  exact ⟨rfl, by decide, rfl⟩

/-- Claim C3 as amended: on a Ping header the engine synchronously replies
with the fixed PingResponse record, but it does not resume scanning: the call
returns the Ping status with an empty payload and leaves the following packet
unread, and only the next `read_packet` call returns that packet. -/
theorem claim_C3_amended (pl rest : List Nat) (l : Link)
    (hack : l.ctx.isAckNeeded = false) (hab : l.ctx.isAckAbortNeeded = false)
    (hlen : pl.length ≤ kIncomingPacketBufferSize)
    (hin : l.input = 0x5A :: 0xA6 :: (goodCommandWire pl ++ rest)) :
    serial_packet_read kPacketType_Command l =
      (kStatus_Ping, [], 0,
        { l with
            input := goodCommandWire pl ++ rest,
            ctx := { l.ctx with isBackToBackWrite := false },
            output := l.output ++ [[0x5A, 0xA7], k_PingResponse_bytes] }) ∧
    serial_packet_read kPacketType_Command
      { l with
          input := goodCommandWire pl ++ rest,
          ctx := { l.ctx with isBackToBackWrite := false },
          output := l.output ++ [[0x5A, 0xA7], k_PingResponse_bytes] } =
      (kStatus_Success, pl, pl.length,
        { l with
            input := rest,
            ctx := { l.ctx with isAckNeeded := true, isBackToBackWrite := false },
            output := l.output ++ [[0x5A, 0xA7], k_PingResponse_bytes] }) := by
  refine ⟨serial_packet_read_ping kPacketType_Command l _ hack hab hin, ?_⟩
  exact serial_packet_read_good kPacketType_Command kFramingPacketType_Command pl rest
    { l with
        input := goodCommandWire pl ++ rest,
        ctx := { l.ctx with isBackToBackWrite := false },
        output := l.output ++ [[0x5A, 0xA7], k_PingResponse_bytes] }
    rfl hack hab hlen rfl

theorem claim_C3_amended_witness :
    (serial_packet_read kPacketType_Command
      { ctx := { isAckNeeded := false, isAckAbortNeeded := false,
                 isBackToBackWrite := false, framingPacket := ⟨⟨0, 0, 0, 0⟩, []⟩ },
        input := 0x5A :: 0xA6 :: (goodCommandWire [5, 6] ++ []),
        output := [] }).1 = kStatus_Ping := by
  rw [(claim_C3_amended [5, 6] [] _ rfl rfl (by decide) rfl).1]

/-! ## Claim C6: a successful read defers an Ack that leads the next write -/

/-- `serial_packet_write` right after a successful read (ack pending): the
deferred Ack sync packet is transmitted before the new data packet. -/
theorem serial_packet_write_after_ack (data : List Nat) (pt : packet_type_t)
    (l : Link) (rest : List Nat)
    (hack : l.ctx.isAckNeeded = true) (_hab : l.ctx.isAckAbortNeeded = false)
    (hlen : data.length ≤ kOutgoingPacketBufferSize)
    (hin : l.input = 0x5A :: 0xA1 :: rest) :
    serial_packet_write (some data) pt l =
      (kStatus_Success,
        { l with
            ctx := { l.ctx with
              isAckNeeded := false,
              isBackToBackWrite := false,
              framingPacket := ⟨mkWriteFraming pt data, data⟩ },
            input := rest,
            output := l.output ++ [[0x5A, 0xA1], writeWire pt data] }) := by
  have hlen2 : ¬ data.length > kOutgoingPacketBufferSize := by omega
  have hda := send_deferred_ack_pending l hack
  simp only [serial_packet_write, hlen2, if_false, hda, write_data]
  unfold wait_for_ack_packet
  rw [wait_for_ack_aux_stops 0xA1 _ _ rest (by simpa using hin) (by omega)
    (Or.inl rfl)]
  rw [if_neg (show ¬ (0xA1 : Nat) = kFramingPacketType_AckAbort by decide)]
  simp [writeWire, List.append_assoc]

/-- Claim C6: after `read_packet` successfully returns a crc-valid Command
payload of length `n`, the ack-needed flag is set and the very next
`write_packet` call transmits the Ack sync packet before its own data
packet. -/
theorem claim_C6_ack_before_next_write (pl d2 rest : List Nat) (l : Link)
    (hack : l.ctx.isAckNeeded = false) (hab : l.ctx.isAckAbortNeeded = false)
    (hplen : pl.length ≤ kIncomingPacketBufferSize)
    (hd2 : d2.length ≤ kOutgoingPacketBufferSize)
    (hin : l.input = goodCommandWire pl ++ (0x5A :: 0xA1 :: rest)) :
    serial_packet_read kPacketType_Command l =
      (kStatus_Success, pl, pl.length,
        { l with input := 0x5A :: 0xA1 :: rest,
                 ctx := { l.ctx with isAckNeeded := true,
                                     isBackToBackWrite := false } }) ∧
    serial_packet_write (some d2) kPacketType_Data
      { l with input := 0x5A :: 0xA1 :: rest,
               ctx := { l.ctx with isAckNeeded := true,
                                   isBackToBackWrite := false } } =
      (kStatus_Success,
        { l with
            ctx := { l.ctx with
              isAckNeeded := false,
              isBackToBackWrite := false,
              framingPacket := ⟨mkWriteFraming kPacketType_Data d2, d2⟩ },
            input := rest,
            output := l.output ++ [[0x5A, 0xA1], writeWire kPacketType_Data d2] }) := by
  refine ⟨serial_packet_read_good kPacketType_Command kFramingPacketType_Command
    pl _ l rfl hack hab hplen hin, ?_⟩
  exact serial_packet_write_after_ack d2 kPacketType_Data
    { l with input := 0x5A :: 0xA1 :: rest,
             ctx := { l.ctx with isAckNeeded := true,
                                 isBackToBackWrite := false } }
    rest rfl hab hd2 rfl

theorem claim_C6_witness :
    (serial_packet_write (some [8, 8]) kPacketType_Data
      { ctx := { isAckNeeded := true, isAckAbortNeeded := false,
                 isBackToBackWrite := false, framingPacket := ⟨⟨0, 0, 0, 0⟩, []⟩ },
        input := [0x5A, 0xA1], output := [] }).1 = kStatus_Success := by
  have h := (claim_C6_ack_before_next_write [1] [8, 8] []
    { ctx := { isAckNeeded := false, isAckAbortNeeded := false,
               isBackToBackWrite := false, framingPacket := ⟨⟨0, 0, 0, 0⟩, []⟩ },
      input := goodCommandWire [1] ++ (0x5A :: 0xA1 :: []), output := [] }
    rfl rfl (by decide) (by decide) rfl).2
  exact congrArg Prod.fst h

/-! ## Claim C8: change gating in the module driver -/

/-- Claim C8: in the `SetTestLed` and `SetLedPwmBrightness` phases a bus
transfer is issued iff the source value differs from the target value at
invocation time; on a transfer the target becomes the source, so after one
invocation in such a phase the target equals the source; and every phase
preserves an already-established equality of target and source (with the
source not mutated), so repeated cycles issue no further transfer in these
phases. -/
theorem claim_C8_change_gating (uhkModuleDriverId : Nat)
    (sourceVars : uhk_module_vars_t) (incoming : i2c_message_t)
    (s : uhk_module_state_t) :
    (s.phase = uhk_module_phase_t.SetTestLed →
      ((UhkModuleSlaveDriver_Update uhkModuleDriverId sourceVars incoming s).tx = none ↔
        sourceVars.isTestLedOn = s.targetVars.isTestLedOn) ∧
      ((UhkModuleSlaveDriver_Update uhkModuleDriverId sourceVars incoming
        s).state.targetVars.isTestLedOn = sourceVars.isTestLedOn) ∧
      (sourceVars.isTestLedOn = s.targetVars.isTestLedOn →
        (UhkModuleSlaveDriver_Update uhkModuleDriverId sourceVars incoming s).status =
          kStatus_Uhk_NoTransfer)) ∧
    (s.phase = uhk_module_phase_t.SetLedPwmBrightness →
      ((UhkModuleSlaveDriver_Update uhkModuleDriverId sourceVars incoming s).tx = none ↔
        sourceVars.ledPwmBrightness = s.targetVars.ledPwmBrightness) ∧
      ((UhkModuleSlaveDriver_Update uhkModuleDriverId sourceVars incoming
        s).state.targetVars.ledPwmBrightness = sourceVars.ledPwmBrightness) ∧
      (sourceVars.ledPwmBrightness = s.targetVars.ledPwmBrightness →
        (UhkModuleSlaveDriver_Update uhkModuleDriverId sourceVars incoming s).status =
          kStatus_Uhk_NoTransfer)) ∧
    (s.targetVars.isTestLedOn = sourceVars.isTestLedOn →
      (UhkModuleSlaveDriver_Update uhkModuleDriverId sourceVars incoming
        s).state.targetVars.isTestLedOn = sourceVars.isTestLedOn) ∧
    (s.targetVars.ledPwmBrightness = sourceVars.ledPwmBrightness →
      (UhkModuleSlaveDriver_Update uhkModuleDriverId sourceVars incoming
        s).state.targetVars.ledPwmBrightness = sourceVars.ledPwmBrightness) := by
  rcases s with ⟨phase, tgt, feats, rx, addr⟩
  cases phase <;>
    by_cases h1 : sourceVars.isTestLedOn = tgt.isTestLedOn <;>
    by_cases h2 : sourceVars.ledPwmBrightness = tgt.ledPwmBrightness <;>
    simp_all [UhkModuleSlaveDriver_Update]

theorem claim_C8_witness :
    (UhkModuleSlaveDriver_Update 0 ⟨true, 5⟩ ⟨[], 0, 0⟩
      { phase := uhk_module_phase_t.SetTestLed, targetVars := ⟨false, 0⟩,
        features := ⟨0⟩, rxMessage := ⟨[], 0, 0⟩,
        firmwareI2cAddress := 0 }).state.targetVars.isTestLedOn = true := by
  exact ((claim_C8_change_gating 0 ⟨true, 5⟩ ⟨[], 0, 0⟩
    { phase := uhk_module_phase_t.SetTestLed, targetVars := ⟨false, 0⟩,
      features := ⟨0⟩, rxMessage := ⟨[], 0, 0⟩,
      firmwareI2cAddress := 0 }).1 rfl).2.1

/-! ## Claim C9: disconnect of the left half and the SetFunctionFrame skip -/

/-- All slaves connected. -/
def slavesAllConnected : SlavesConnected := fun _ => true

/-- A left LED driver state sitting in `SetFunctionFrame`. -/
def c9FunctionFrameState : led_driver_state_t :=
  { phase := LedDriverPhase.SetFunctionFrame, ledIndex := 0,
    sourceLedValues := fun _ => 0, targetLedValues := fun _ => 0,
    i2cAddress := 0, setupLedControlRegistersCommand := [] }

/-- Claim C9 fails on the code: `UhkModuleSlaveDriver_Disconnect` for the
left keyboard half marks `Slaves[SlaveId_LeftLedDriver]` as not connected,
but the `SetFunctionFrame` skip in `LedSlaveDriver_Update` reads
`Slaves[SlaveId_LeftKeyboardHalf].isConnected`, which the disconnect
operation does not touch: immediately after the disconnect, an update of the
left LED driver in `SetFunctionFrame` still issues a bus transfer and
advances the phase. -/
theorem claim_C9_counterexample :
    (UhkModuleSlaveDriver_Disconnect SlaveId.leftKeyboardHalf slavesAllConnected)
      SlaveId.leftLedDriver = false ∧
    (LedSlaveDriver_Update 144 9 LedDriverId.left
      (UhkModuleSlaveDriver_Disconnect SlaveId.leftKeyboardHalf slavesAllConnected)
      c9FunctionFrameState).2 = some setFunctionFrameBuffer ∧
    (LedSlaveDriver_Update 144 9 LedDriverId.left
      (UhkModuleSlaveDriver_Disconnect SlaveId.leftKeyboardHalf slavesAllConnected)
      c9FunctionFrameState).1.phase ≠ LedDriverPhase.SetFunctionFrame := by
  refine ⟨rfl, rfl, ?_⟩
  intro h
  simp [LedSlaveDriver_Update, c9FunctionFrameState,
    UhkModuleSlaveDriver_Disconnect, slavesAllConnected] at h

/-- Claim C9 as amended: disconnecting the left keyboard half marks the left
LED driver slave as not connected; the `SetFunctionFrame` phase of the left
LED driver is skipped (no transfer, state unchanged) exactly when the left
keyboard half slave is marked not connected — a flag the scheduler, not this
disconnect operation, maintains. -/
theorem claim_C9_amended (N C : Nat) (slaves : SlavesConnected) :
    (UhkModuleSlaveDriver_Disconnect SlaveId.leftKeyboardHalf slaves)
      SlaveId.leftLedDriver = false ∧
    (∀ (slaves2 : SlavesConnected) (s2 : led_driver_state_t),
      slaves2 SlaveId.leftKeyboardHalf = false →
      s2.phase = LedDriverPhase.SetFunctionFrame →
      LedSlaveDriver_Update N C LedDriverId.left slaves2 s2 = (s2, none)) ∧
    (∀ (slaves2 : SlavesConnected) (s2 : led_driver_state_t),
      slaves2 SlaveId.leftKeyboardHalf = true →
      s2.phase = LedDriverPhase.SetFunctionFrame →
      LedSlaveDriver_Update N C LedDriverId.left slaves2 s2 =
        ({ s2 with phase := LedDriverPhase.SetShutdownModeNormal },
          some setFunctionFrameBuffer)) := by
  refine ⟨by simp [UhkModuleSlaveDriver_Disconnect], ?_, ?_⟩
  · intro slaves2 s2 hs hp
    simp [LedSlaveDriver_Update, hp, hs]
  · intro slaves2 s2 hs hp
    simp [LedSlaveDriver_Update, hp, hs]

theorem claim_C9_amended_witness :
    LedSlaveDriver_Update 144 9 LedDriverId.left (fun _ => false)
      c9FunctionFrameState = (c9FunctionFrameState, none) :=
  (claim_C9_amended 144 9 slavesAllConnected).2.1 (fun _ => false)
    c9FunctionFrameState rfl rfl

/-! ## Claim C1: convergence of the Initialized-phase incremental sync

The analysis is parametric in the table size `N` (`LED_DRIVER_LED_COUNT`) and
the chunk size `C` (`PMW_REGISTER_UPDATE_CHUNK_SIZE`), whose values live in a
header missing from the snapshot, under `0 < C ≤ N`. -/

/-- `⌈a / b⌉` on naturals. -/
def ceilDiv (a b : Nat) : Nat := (a + b - 1) / b

theorem ceilDiv_mul_ge (C x : Nat) (hC : 0 < C) : x ≤ ceilDiv x C * C := by
  unfold ceilDiv
  rw [Nat.mul_comm]
  have hmod := Nat.div_add_mod (x + C - 1) C
  have hr : (x + C - 1) % C < C := Nat.mod_lt _ hC
  omega

theorem ceilDiv_mono (C x y : Nat) (h : x ≤ y) : ceilDiv x C ≤ ceilDiv y C := by
  unfold ceilDiv
  exact Nat.div_le_div_right (by omega)

theorem ceilDiv_subadd (C x y : Nat) (hC : 0 < C) :
    ceilDiv x C + ceilDiv y C ≤ ceilDiv (x + y) C + 1 := by
  unfold ceilDiv
  have h1 := Nat.div_add_mod (x + C - 1) C
  have h2 := Nat.div_add_mod (y + C - 1) C
  have h3 := Nat.div_add_mod (x + y + C - 1) C
  have hr1 : (x + C - 1) % C < C := Nat.mod_lt _ hC
  have hr2 : (y + C - 1) % C < C := Nat.mod_lt _ hC
  have hr3 : (x + y + C - 1) % C < C := Nat.mod_lt _ hC
  by_contra hcon
  push_neg at hcon
  have hAB : (x + C - 1) / C + (y + C - 1) / C ≥ (x + y + C - 1) / C + 2 := hcon
  have hmul : C * ((x + C - 1) / C + (y + C - 1) / C) ≥
      C * ((x + y + C - 1) / C + 2) := Nat.mul_le_mul_left _ hAB
  rw [Nat.mul_add, Nat.mul_add] at hmul
  omega

/-! ### Properties of the circular first-difference scan -/

theorem scanFirstDiff_none (src tgt : Nat → Nat) (N : Nat)
    (h : ∀ i, i < N → src i = tgt i) :
    ∀ fuel idx, idx < N → scanFirstDiff src tgt N idx fuel = none := by
  intro fuel
  induction fuel with
  | zero => intro idx _; rfl
  | succ fuel ih =>
    intro idx hidx
    unfold scanFirstDiff
    rw [if_neg (by simpa using h idx hidx)]
    exact ih _ (by split <;> omega)

theorem scanFirstDiff_sound (src tgt : Nat → Nat) (N : Nat) (p : Nat) :
    ∀ fuel idx, idx < N → scanFirstDiff src tgt N idx fuel = some p →
    src p ≠ tgt p ∧ p < N := by
  intro fuel
  induction fuel with
  | zero => intro idx _ h; exact absurd h (by simp [scanFirstDiff])
  | succ fuel ih =>
    intro idx hidx h
    unfold scanFirstDiff at h
    by_cases hd : src idx ≠ tgt idx
    · rw [if_pos hd] at h
      obtain rfl : idx = p := by simpa using h
      exact ⟨hd, hidx⟩
    · rw [if_neg hd] at h
      exact ih _ (by split <;> omega) h

theorem scanFirstDiff_finds (src tgt : Nat → Nat) (N p : Nat)
    (hp : p < N) (hd : src p ≠ tgt p) :
    ∀ fuel idx, idx ≤ p → (∀ i, idx ≤ i → i < p → src i = tgt i) →
    p - idx < fuel → scanFirstDiff src tgt N idx fuel = some p := by
  intro fuel
  induction fuel with
  | zero => omega
  | succ fuel ih =>
    intro idx hip hclean hfuel
    unfold scanFirstDiff
    by_cases heq : idx = p
    · subst heq
      rw [if_pos hd]
    · have hlt : idx < p := by omega
      rw [if_neg (by simpa using hclean idx (Nat.le_refl _) hlt)]
      rw [if_neg (by omega : ¬ idx + 1 ≥ N)]
      exact ih (idx + 1) (by omega) (fun i h1 h2 => hclean i (by omega) h2) (by omega)

theorem scanFirstDiff_wraps (src tgt : Nat → Nat) (N p : Nat)
    (hp : p < N) (hd : src p ≠ tgt p)
    (hlow : ∀ i, i < p → src i = tgt i) :
    ∀ fuel idx, p < idx → idx < N → (∀ i, idx ≤ i → i < N → src i = tgt i) →
    (N - idx) + p < fuel → scanFirstDiff src tgt N idx fuel = some p := by
  intro fuel
  induction fuel with
  | zero => omega
  | succ fuel ih =>
    intro idx hpi hidx hclean hfuel
    unfold scanFirstDiff
    rw [if_neg (by simpa using hclean idx (Nat.le_refl _) hidx)]
    by_cases hwrap : idx + 1 ≥ N
    · rw [if_pos hwrap]
      exact scanFirstDiff_finds src tgt N p hp hd fuel 0 (by omega)
        (fun i _ h2 => hlow i h2) (by omega)
    · rw [if_neg hwrap]
      exact ih (idx + 1) (by omega) (by omega)
        (fun i h1 h2 => hclean i (by omega) h2) (by omega)

/-! ### Properties of the last-difference window scan -/

theorem scanLastDiff_spec (src tgt : Nat → Nat) :
    ∀ (steps idx e : Nat),
    (scanLastDiff src tgt e idx steps = e ∧
      ∀ i, idx ≤ i → i < idx + steps → src i = tgt i) ∨
    (src (scanLastDiff src tgt e idx steps) ≠ tgt (scanLastDiff src tgt e idx steps) ∧
      idx ≤ scanLastDiff src tgt e idx steps ∧
      scanLastDiff src tgt e idx steps < idx + steps ∧
      ∀ i, scanLastDiff src tgt e idx steps < i → i < idx + steps → src i = tgt i) := by
  intro steps
  induction steps with
  | zero => intro idx e; exact Or.inl ⟨rfl, by omega⟩
  | succ steps ih =>
    intro idx e
    unfold scanLastDiff
    by_cases hd : src idx ≠ tgt idx
    · rw [if_pos hd]
      rcases ih (idx + 1) idx with ⟨heq, hclean⟩ | ⟨hdr, hlo, hhi, hclean⟩
      · rw [heq]
        exact Or.inr ⟨hd, Nat.le_refl _, by omega, fun i h1 h2 => hclean i (by omega) (by omega)⟩
      · exact Or.inr ⟨hdr, by omega, by omega, fun i h1 h2 => hclean i h1 (by omega)⟩
    · rw [if_neg hd]
      rcases ih (idx + 1) e with ⟨heq, hclean⟩ | ⟨hdr, hlo, hhi, hclean⟩
      · refine Or.inl ⟨heq, fun i h1 h2 => ?_⟩
        rcases Nat.eq_or_lt_of_le h1 with h | h
        · subst h; simpa using hd
        · exact hclean i (by omega) (by omega)
      · exact Or.inr ⟨hdr, by omega, by omega, fun i h1 h2 => hclean i h1 (by omega)⟩

/-! ### One Initialized-phase call, described -/

theorem overwriteRange_in (tgt src : Nat → Nat) (a e i : Nat)
    (h1 : a ≤ i) (h2 : i ≤ e) : overwriteRange tgt src a e i = src i := by
  simp [overwriteRange, h1, h2]

theorem overwriteRange_out (tgt src : Nat → Nat) (a e i : Nat)
    (h : i < a ∨ e < i) : overwriteRange tgt src a e i = tgt i := by
  rcases h with h | h <;> simp [overwriteRange] <;> omega

/-- Least mismatched index of a non-converged state. -/
theorem exists_least_diff (N : Nat) (s : led_driver_state_t)
    (h : ¬ ledConverged N s) :
    ∃ q, q < N ∧ s.sourceLedValues q ≠ s.targetLedValues q ∧
      ∀ j, j < q → j < N → s.sourceLedValues j = s.targetLedValues j := by
  unfold ledConverged at h
  push_neg at h
  obtain ⟨i, hiN, hid⟩ := h
  have hex : ∃ j, j < N ∧ s.sourceLedValues j ≠ s.targetLedValues j :=
    ⟨i, hiN, fun hc => hid hc.symm⟩
  classical
  refine ⟨Nat.find hex, (Nat.find_spec hex).1, (Nat.find_spec hex).2, ?_⟩
  intro j hj hjN
  by_contra hne
  exact Nat.find_min hex hj ⟨hjN, hne⟩

/-- Execution of one `Initialized`-phase update call whose circular scan
found the mismatch `p`: there is a run end `e` inside the chunk window (the
last mismatched index there), the window beyond `e` is already in sync, and
the call overwrites exactly `[p, e]` in the target shadows, advances the
cursor by the run length (wrapping to 0 past the table end) and stages a
`run length + 1`-byte write. -/
theorem initialized_step (N C : Nat) (ledDriverId : LedDriverId)
    (slaves : SlavesConnected) (s : led_driver_state_t) (p : Nat)
    (hC : 0 < C) (hCN : C ≤ N)
    (hphase : s.phase = LedDriverPhase.Initialized)
    (hscan : scanFirstDiff s.sourceLedValues s.targetLedValues N
      (min s.ledIndex (N - C)) N = some p) :
    s.sourceLedValues p ≠ s.targetLedValues p ∧ p < N ∧
    ∃ e, p ≤ e ∧ e < p + min (N - p) C ∧
      s.sourceLedValues e ≠ s.targetLedValues e ∧
      (∀ i, e < i → i < p + min (N - p) C →
        s.sourceLedValues i = s.targetLedValues i) ∧
      LedSlaveDriver_Update N C ledDriverId slaves s =
        ({ s with
            targetLedValues :=
              overwriteRange s.targetLedValues s.sourceLedValues p e,
            ledIndex := if s.ledIndex + (e - p + 1) ≥ N then 0
              else s.ledIndex + (e - p + 1) },
          some ((FRAME_REGISTER_PWM_FIRST + p) ::
            srcSlice s.sourceLedValues p (e - p + 1))) := by
  have hstart : min s.ledIndex (N - C) < N := by omega
  obtain ⟨hpd, hpN⟩ := scanFirstDiff_sound s.sourceLedValues s.targetLedValues N p
    N _ hstart hscan
  refine ⟨hpd, hpN, ?_⟩
  have hw : 1 ≤ min (N - p) C := by omega
  obtain ⟨phase, li, src, tgt, addr, cmd⟩ := s
  simp only at hphase hscan hpd ⊢
  subst hphase
  rcases scanLastDiff_spec src tgt (min (N - p) C) p p with
    ⟨heq, hclean⟩ | ⟨hdr, hlo, hhi, hclean⟩
  · exact absurd (hclean p (Nat.le_refl _) (by omega)) hpd
  · refine ⟨scanLastDiff src tgt p p (min (N - p) C), hlo, hhi, hdr, hclean, ?_⟩
    simp only [LedSlaveDriver_Update]
    rw [hscan]

/-! ### Iteration bookkeeping -/

theorem ledIter_add (N C : Nat) (ledDriverId : LedDriverId)
    (slaves : SlavesConnected) :
    ∀ (m n : Nat) (s : led_driver_state_t),
    ledIter N C ledDriverId slaves (m + n) s =
      ledIter N C ledDriverId slaves n (ledIter N C ledDriverId slaves m s) := by
  intro m
  induction m with
  | zero => intro n s; rw [Nat.zero_add]; rfl
  | succ m ih =>
    intro n s
    have : m + 1 + n = (m + n) + 1 := by omega
    rw [this]
    show ledIter N C ledDriverId slaves (m + n) _ = _
    rw [ih]
    rfl

theorem ledStep_converged (N C : Nat) (ledDriverId : LedDriverId)
    (slaves : SlavesConnected) (s : led_driver_state_t)
    (hC : 0 < C) (hCN : C ≤ N)
    (hphase : s.phase = LedDriverPhase.Initialized)
    (hconv : ledConverged N s) :
    ledStep N C ledDriverId slaves s = { s with ledIndex := 0 } := by
  have hscan : scanFirstDiff s.sourceLedValues s.targetLedValues N
      (min s.ledIndex (N - C)) N = none :=
    scanFirstDiff_none _ _ N (fun i hi => (hconv i hi).symm) N _ (by omega)
  obtain ⟨phase, li, src, tgt, addr, cmd⟩ := s
  simp only at hphase hscan
  subst hphase
  simp only [ledStep, LedSlaveDriver_Update]
  rw [hscan]

theorem ledIter_converged (N C : Nat) (ledDriverId : LedDriverId)
    (slaves : SlavesConnected) :
    ∀ (k : Nat) (s : led_driver_state_t), 0 < C → C ≤ N →
    s.phase = LedDriverPhase.Initialized → ledConverged N s →
    ledConverged N (ledIter N C ledDriverId slaves k s) := by
  intro k
  induction k with
  | zero => intro s _ _ _ h; exact h
  | succ k ih =>
    intro s hC hCN hphase hconv
    show ledConverged N (ledIter N C ledDriverId slaves k
      (ledStep N C ledDriverId slaves s))
    rw [ledStep_converged N C ledDriverId slaves s hC hCN hphase hconv]
    exact ih _ hC hCN hphase hconv

/-- Once converged after `k` calls, still converged after any `d ≥ k`. -/
theorem ledConverged_pad (N C : Nat) (ledDriverId : LedDriverId)
    (slaves : SlavesConnected) (k d : Nat) (s : led_driver_state_t)
    (hC : 0 < C) (hCN : C ≤ N)
    (hkd : k ≤ d)
    (hphase : (ledIter N C ledDriverId slaves k s).phase = LedDriverPhase.Initialized)
    (hconv : ledConverged N (ledIter N C ledDriverId slaves k s)) :
    ledConverged N (ledIter N C ledDriverId slaves d s) := by
  have : d = k + (d - k) := by omega
  rw [this, ledIter_add]
  exact ledIter_converged N C ledDriverId slaves (d - k) _ hC hCN hphase hconv

theorem ledIter_succ (N C : Nat) (ledDriverId : LedDriverId)
    (slaves : SlavesConnected) (k : Nat) (s : led_driver_state_t) :
    ledIter N C ledDriverId slaves (k + 1) s =
      ledIter N C ledDriverId slaves k (ledStep N C ledDriverId slaves s) := rfl

theorem ledIter_zero (N C : Nat) (ledDriverId : LedDriverId)
    (slaves : SlavesConnected) (s : led_driver_state_t) :
    ledIter N C ledDriverId slaves 0 s = s := rfl

/-- The core convergence bookkeeping, one statement for the three run
regimes, by induction on the remaining number of calls `d`:
(B) every remaining mismatch sits in `[a, b)` strictly behind the scan
start, reachable only by wrapping, and `b - a` fits in `dB ≤ d` chunks;
(M) the scan will next hit the mismatch at `p`, mismatches ahead end at
`b` and fit in `dA` chunks, mismatches behind end at `c ≤` scan start and
fit in `dB` chunks, with `dA + dB ≤ d`;
(T) the next mismatch `p` lies in the clamp zone `[N - C, N)`, so one call
clears everything from `p` to the end, and the wrapped-around remainder
`[0, N - C)` fits in `dR ≤ d - 1` chunks. -/
theorem led_core (N C : Nat) (ledDriverId : LedDriverId)
    (slaves : SlavesConnected) (hC : 0 < C) (hCN : C ≤ N) :
    ∀ d : Nat,
    (∀ (s : led_driver_state_t) (a b dB : Nat),
      s.phase = LedDriverPhase.Initialized →
      (∀ i, i < a → s.sourceLedValues i = s.targetLedValues i) →
      (∀ i, b ≤ i → i < N → s.sourceLedValues i = s.targetLedValues i) →
      b ≤ s.ledIndex → b ≤ N - C →
      b - a ≤ dB * C → dB ≤ d →
      ledConverged N (ledIter N C ledDriverId slaves d s)) ∧
    (∀ (s : led_driver_state_t) (p c b dA dB : Nat),
      s.phase = LedDriverPhase.Initialized →
      p < N → s.sourceLedValues p ≠ s.targetLedValues p →
      s.ledIndex ≤ p → c ≤ s.ledIndex → c ≤ N - C →
      (∀ i, c ≤ i → i < p → s.sourceLedValues i = s.targetLedValues i) →
      p < b → b ≤ N →
      (∀ i, b ≤ i → i < N → s.sourceLedValues i = s.targetLedValues i) →
      b - p ≤ dA * C → c ≤ dB * C → dA + dB ≤ d →
      ledConverged N (ledIter N C ledDriverId slaves d s)) ∧
    (∀ (s : led_driver_state_t) (p dR : Nat),
      s.phase = LedDriverPhase.Initialized →
      p < N → s.sourceLedValues p ≠ s.targetLedValues p →
      N - C ≤ p → N - C ≤ s.ledIndex →
      (∀ i, N - C ≤ i → i < p → s.sourceLedValues i = s.targetLedValues i) →
      N - C ≤ dR * C → dR + 1 ≤ d →
      ledConverged N (ledIter N C ledDriverId slaves d s)) := by
  intro d
  induction d with
  | zero =>
    refine ⟨?_, ?_, ?_⟩
    · intro s a b dB hphase hbelow habove hbli hbNC hcount hdle
      have hdB : dB = 0 := by omega
      subst hdB
      have hba : b ≤ a := by simp only [Nat.zero_mul] at hcount; omega
      rw [ledIter_zero]
      intro i hi
      by_cases hia : i < a
      · exact (hbelow i hia).symm
      · exact (habove i (by omega) hi).symm
    · intro s p c b dA dB _ _ _ _ _ _ _ hpb _ _ hcntA _ hdle
      have : dA = 0 := by omega
      subst this
      simp only [Nat.zero_mul] at hcntA
      omega
    · intro s p dR _ _ _ _ _ _ _ hdle
      omega
  | succ d ih =>
    obtain ⟨ihB, ihM, ihT⟩ := ih
    refine ⟨?_, ?_, ?_⟩
    -- ===== regime B: all mismatches behind the scan start =====
    · intro s a b dB hphase hbelow habove hbli hbNC hcount hdle
      by_cases hconv : ledConverged N s
      · exact ledIter_converged N C ledDriverId slaves (d + 1) s hC hCN hphase hconv
      obtain ⟨q, hqN, hqd, hqmin⟩ := exists_least_diff N s hconv
      have hqa : a ≤ q := by
        by_contra hh
        exact hqd (hbelow q (by omega))
      have hqb : q < b := by
        by_contra hh
        exact hqd (habove q (by omega) hqN)
      have hdB : 1 ≤ dB := by
        rcases Nat.eq_zero_or_pos dB with h | h
        · subst h; simp only [Nat.zero_mul] at hcount; omega
        · exact h
      have hmul : dB * C = (dB - 1) * C + C := by
        have h1 : dB = (dB - 1) + 1 := by omega
        conv_lhs => rw [h1]
        rw [Nat.add_mul, Nat.one_mul]
      have hscan : scanFirstDiff s.sourceLedValues s.targetLedValues N
          (min s.ledIndex (N - C)) N = some q := by
        refine scanFirstDiff_wraps s.sourceLedValues s.targetLedValues N q hqN hqd
          (fun i hi => hqmin i hi (by omega)) N (min s.ledIndex (N - C))
          (by omega) (by omega) (fun i h1 h2 => habove i (by omega) h2) (by omega)
      obtain ⟨_, _, e, hpe, hew, hed, hecl, hupd⟩ :=
        initialized_step N C ledDriverId slaves s q hC hCN hphase hscan
      have hwC : min (N - q) C = C := by omega
      rw [hwC] at hew hecl
      have heb : e < b := by
        by_contra hh
        exact hed (habove e (by omega) (by omega))
      have hstep : ledStep N C ledDriverId slaves s =
          { s with
              targetLedValues :=
                overwriteRange s.targetLedValues s.sourceLedValues q e,
              ledIndex := if s.ledIndex + (e - q + 1) ≥ N then 0
                else s.ledIndex + (e - q + 1) } := by
        unfold ledStep
        rw [hupd]
      rw [ledIter_succ, hstep]
      have hs2below : ∀ i, i < q + C →
          s.sourceLedValues i =
            overwriteRange s.targetLedValues s.sourceLedValues q e i := by
        intro i hi
        by_cases h1 : i < q
        · rw [overwriteRange_out _ _ _ _ _ (Or.inl h1)]
          exact hqmin i h1 (by omega)
        · by_cases h2 : i ≤ e
          · rw [overwriteRange_in _ _ _ _ _ (by omega) h2]
          · rw [overwriteRange_out _ _ _ _ _ (Or.inr (by omega))]
            exact hecl i (by omega) (by omega)
      have hs2above : ∀ i, b ≤ i → i < N →
          s.sourceLedValues i =
            overwriteRange s.targetLedValues s.sourceLedValues q e i := by
        intro i h1 h2
        rw [overwriteRange_out _ _ _ _ _ (Or.inr (by omega))]
        exact habove i h1 h2
      by_cases hconv2 : ledConverged N
          { s with
              targetLedValues :=
                overwriteRange s.targetLedValues s.sourceLedValues q e,
              ledIndex := if s.ledIndex + (e - q + 1) ≥ N then 0
                else s.ledIndex + (e - q + 1) }
      · exact ledIter_converged N C ledDriverId slaves d _ hC hCN hphase hconv2
      obtain ⟨q2, hq2N, hq2d, hq2min⟩ := exists_least_diff N _ hconv2
      have hq2lo : q + C ≤ q2 := by
        by_contra hh
        exact hq2d (hs2below q2 (by omega))
      have hq2hi : q2 < b := by
        by_contra hh
        exact hq2d (hs2above q2 (by omega) hq2N)
      by_cases hreset : s.ledIndex + (e - q + 1) ≥ N
      · refine ihM _ q2 0 b (dB - 1) 0 hphase hq2N hq2d ?_ ?_ (by omega)
          (fun i _ h2 => hq2min i h2 (by omega)) hq2hi (by omega) hs2above
          ?_ (by simp) (by omega)
        · show (if s.ledIndex + (e - q + 1) ≥ N then 0
            else s.ledIndex + (e - q + 1)) ≤ q2
          rw [if_pos hreset]
          omega
        · show (0 : Nat) ≤ _
          omega
        · omega
      · refine ihB _ (q + C) b (dB - 1) hphase hs2below hs2above ?_ hbNC ?_ (by omega)
        · show b ≤ (if s.ledIndex + (e - q + 1) ≥ N then 0
            else s.ledIndex + (e - q + 1))
          rw [if_neg hreset]
          omega
        · omega
    -- ===== regime M: scan hits p, mismatches ahead in [p, b), behind in [0, c) =====
    · intro s p c b dA dB hphase hpN hpd hlip hcli hcNC hcp hpb hbN hbcl hcntA hcntB hdle
      have hdA : 1 ≤ dA := by
        rcases Nat.eq_zero_or_pos dA with h | h
        · subst h; simp only [Nat.zero_mul] at hcntA; omega
        · exact h
      have hmulA : dA * C = (dA - 1) * C + C := by
        have h1 : dA = (dA - 1) + 1 := by omega
        conv_lhs => rw [h1]
        rw [Nat.add_mul, Nat.one_mul]
      have hscan : scanFirstDiff s.sourceLedValues s.targetLedValues N
          (min s.ledIndex (N - C)) N = some p := by
        refine scanFirstDiff_finds s.sourceLedValues s.targetLedValues N p hpN hpd
          N (min s.ledIndex (N - C)) (by omega)
          (fun i h1 h2 => hcp i (by omega) h2) (by omega)
      obtain ⟨_, _, e, hpe, hew, hed, hecl, hupd⟩ :=
        initialized_step N C ledDriverId slaves s p hC hCN hphase hscan
      have heN : e < N := by omega
      have heb : e < b := by
        by_contra hh
        exact hed (hbcl e (by omega) heN)
      have hstep : ledStep N C ledDriverId slaves s =
          { s with
              targetLedValues :=
                overwriteRange s.targetLedValues s.sourceLedValues p e,
              ledIndex := if s.ledIndex + (e - p + 1) ≥ N then 0
                else s.ledIndex + (e - p + 1) } := by
        unfold ledStep
        rw [hupd]
      rw [ledIter_succ, hstep]
      have hs2mid : ∀ i, c ≤ i → i < p + min (N - p) C →
          s.sourceLedValues i =
            overwriteRange s.targetLedValues s.sourceLedValues p e i := by
        intro i h1 h2
        by_cases hip : i < p
        · rw [overwriteRange_out _ _ _ _ _ (Or.inl hip)]
          exact hcp i h1 hip
        · by_cases hie : i ≤ e
          · rw [overwriteRange_in _ _ _ _ _ (by omega) hie]
          · rw [overwriteRange_out _ _ _ _ _ (Or.inr (by omega))]
            exact hecl i (by omega) h2
      have hs2above : ∀ i, b ≤ i → i < N →
          s.sourceLedValues i =
            overwriteRange s.targetLedValues s.sourceLedValues p e i := by
        intro i h1 h2
        rw [overwriteRange_out _ _ _ _ _ (Or.inr (by omega))]
        exact hbcl i h1 h2
      by_cases hconv2 : ledConverged N
          { s with
              targetLedValues :=
                overwriteRange s.targetLedValues s.sourceLedValues p e,
              ledIndex := if s.ledIndex + (e - p + 1) ≥ N then 0
                else s.ledIndex + (e - p + 1) }
      · exact ledIter_converged N C ledDriverId slaves d _ hC hCN hphase hconv2
      by_cases hEx : ∃ i, p + min (N - p) C ≤ i ∧ i < b ∧
          ¬ s.sourceLedValues i =
            overwriteRange s.targetLedValues s.sourceLedValues p e i
      · classical
        have hp2N := Nat.find_spec hEx
        obtain ⟨hp2lo, hp2b, hp2d⟩ := hp2N
        have hp2min : ∀ j, p + min (N - p) C ≤ j → j < Nat.find hEx →
            s.sourceLedValues j =
              overwriteRange s.targetLedValues s.sourceLedValues p e j := by
          intro j h1 h2
          by_contra hne
          exact Nat.find_min hEx h2 ⟨h1, by omega, hne⟩
        have hwceq : min (N - p) C = C := by omega
        have hnr : ¬ s.ledIndex + (e - p + 1) ≥ N := by omega
        refine ihM _ (Nat.find hEx) c b (dA - 1) dB hphase (by omega) hp2d
          ?_ ?_ hcNC ?_ hp2b hbN hs2above ?_ hcntB (by omega)
        · show (if s.ledIndex + (e - p + 1) ≥ N then 0
            else s.ledIndex + (e - p + 1)) ≤ Nat.find hEx
          rw [if_neg hnr]
          omega
        · show c ≤ (if s.ledIndex + (e - p + 1) ≥ N then 0
            else s.ledIndex + (e - p + 1))
          rw [if_neg hnr]
          omega
        · intro i h1 h2
          by_cases hiw : i < p + min (N - p) C
          · exact hs2mid i h1 hiw
          · exact hp2min i (by omega) h2
        · omega
      · push_neg at hEx
        have hs2cleanc : ∀ i, c ≤ i → i < N →
            s.sourceLedValues i =
              overwriteRange s.targetLedValues s.sourceLedValues p e i := by
          intro i h1 h2
          by_cases hiw : i < p + min (N - p) C
          · exact hs2mid i h1 hiw
          · by_cases hib : i < b
            · exact hEx i (by omega) hib
            · exact hs2above i (by omega) h2
        obtain ⟨q2, hq2N, hq2d, hq2min⟩ := exists_least_diff N _ hconv2
        have hq2c : q2 < c := by
          by_contra hh
          exact hq2d (hs2cleanc q2 (by omega) hq2N)
        by_cases hreset : s.ledIndex + (e - p + 1) ≥ N
        · refine ihM _ q2 0 c dB 0 hphase hq2N hq2d ?_ ?_ (by omega)
            (fun i _ h2 => hq2min i h2 (by omega)) hq2c (by omega)
            (fun i h1 h2 => hs2cleanc i (by omega) h2) (by omega) (by simp)
            (by omega)
          · show (if s.ledIndex + (e - p + 1) ≥ N then 0
              else s.ledIndex + (e - p + 1)) ≤ q2
            rw [if_pos hreset]
            omega
          · show (0 : Nat) ≤ _
            omega
        · refine ihB _ 0 c dB hphase (fun i hi => absurd hi (by omega))
            (fun i h1 h2 => hs2cleanc i (by omega) h2) ?_ hcNC (by omega) (by omega)
          show c ≤ (if s.ledIndex + (e - p + 1) ≥ N then 0
            else s.ledIndex + (e - p + 1))
          rw [if_neg hreset]
          omega
    -- ===== regime T: the mismatch p lies in the clamp zone [N - C, N) =====
    · intro s p dR hphase hpN hpd hpNC hliNC hcl hcnt hdle
      have hs0 : min s.ledIndex (N - C) = N - C := by omega
      have hscan : scanFirstDiff s.sourceLedValues s.targetLedValues N
          (min s.ledIndex (N - C)) N = some p := by
        rw [hs0]
        exact scanFirstDiff_finds s.sourceLedValues s.targetLedValues N p hpN hpd
          N (N - C) hpNC (fun i h1 h2 => hcl i h1 h2) (by omega)
      obtain ⟨_, _, e, hpe, hew, hed, hecl, hupd⟩ :=
        initialized_step N C ledDriverId slaves s p hC hCN hphase hscan
      have hwNp : min (N - p) C = N - p := by omega
      rw [hwNp] at hew hecl
      have hstep : ledStep N C ledDriverId slaves s =
          { s with
              targetLedValues :=
                overwriteRange s.targetLedValues s.sourceLedValues p e,
              ledIndex := if s.ledIndex + (e - p + 1) ≥ N then 0
                else s.ledIndex + (e - p + 1) } := by
        unfold ledStep
        rw [hupd]
      rw [ledIter_succ, hstep]
      have hs2tail : ∀ i, N - C ≤ i → i < N →
          s.sourceLedValues i =
            overwriteRange s.targetLedValues s.sourceLedValues p e i := by
        intro i h1 h2
        by_cases hip : i < p
        · rw [overwriteRange_out _ _ _ _ _ (Or.inl hip)]
          exact hcl i h1 hip
        · by_cases hie : i ≤ e
          · rw [overwriteRange_in _ _ _ _ _ (by omega) hie]
          · rw [overwriteRange_out _ _ _ _ _ (Or.inr (by omega))]
            exact hecl i (by omega) (by omega)
      by_cases hconv2 : ledConverged N
          { s with
              targetLedValues :=
                overwriteRange s.targetLedValues s.sourceLedValues p e,
              ledIndex := if s.ledIndex + (e - p + 1) ≥ N then 0
                else s.ledIndex + (e - p + 1) }
      · exact ledIter_converged N C ledDriverId slaves d _ hC hCN hphase hconv2
      obtain ⟨q2, hq2N, hq2d, hq2min⟩ := exists_least_diff N _ hconv2
      have hq2c : q2 < N - C := by
        by_contra hh
        exact hq2d (hs2tail q2 (by omega) hq2N)
      by_cases hreset : s.ledIndex + (e - p + 1) ≥ N
      · refine ihM _ q2 0 (N - C) dR 0 hphase hq2N hq2d ?_ ?_ (by omega)
          (fun i _ h2 => hq2min i h2 (by omega)) hq2c (by omega)
          (fun i h1 h2 => hs2tail i h1 h2) (by omega) (by simp) (by omega)
        · show (if s.ledIndex + (e - p + 1) ≥ N then 0
            else s.ledIndex + (e - p + 1)) ≤ q2
          rw [if_pos hreset]
          omega
        · show (0 : Nat) ≤ _
          omega
      · refine ihB _ 0 (N - C) dR hphase (fun i hi => absurd hi (by omega))
          (fun i h1 h2 => hs2tail i h1 h2) ?_ (by omega) (by omega) (by omega)
        show N - C ≤ (if s.ledIndex + (e - p + 1) ≥ N then 0
          else s.ledIndex + (e - p + 1))
        rw [if_neg hreset]
        omega

/-- Every `Initialized`-phase call stages at most `C + 1` bytes. -/
theorem ledUpdate_payload_bound (N C : Nat) (ledDriverId : LedDriverId)
    (slaves : SlavesConnected) (s : led_driver_state_t)
    (hC : 0 < C) (hCN : C ≤ N)
    (hphase : s.phase = LedDriverPhase.Initialized) :
    ∀ bytes, (LedSlaveDriver_Update N C ledDriverId slaves s).2 = some bytes →
      bytes.length ≤ C + 1 := by
  intro bytes hb
  rcases hscan : scanFirstDiff s.sourceLedValues s.targetLedValues N
      (min s.ledIndex (N - C)) N with _ | p
  · obtain ⟨phase, li, src, tgt, addr, cmd⟩ := s
    simp only at hphase hscan
    subst hphase
    simp only [LedSlaveDriver_Update] at hb
    rw [hscan] at hb
    exact absurd hb (by simp)
  · obtain ⟨_, _, e, hpe, hew, hed, hecl, hupd⟩ :=
      initialized_step N C ledDriverId slaves s p hC hCN hphase hscan
    rw [hupd] at hb
    simp only at hb
    obtain rfl : (FRAME_REGISTER_PWM_FIRST + p) ::
        srcSlice s.sourceLedValues p (e - p + 1) = bytes := by simpa using hb
    simp only [List.length_cons, srcSlice, List.length_map, List.length_range]
    omega

/-- Claim C1 as amended: in the `Initialized` phase (a) no single call stages
more than `C + 1` bytes for the bus write; (b) with no further source
mutation, `⌈N / C⌉ + 1` update calls make the target table equal the source
table from any state; and (c) the original `⌈N / C⌉` bound holds whenever
the rolling cursor starts at or below every mismatched index (in particular
at cursor 0, the value on entry to `Initialized`). -/
theorem claim_C1_amended (N C : Nat) (ledDriverId : LedDriverId)
    (slaves : SlavesConnected) (s : led_driver_state_t)
    (hC : 0 < C) (hCN : C ≤ N)
    (hphase : s.phase = LedDriverPhase.Initialized) :
    (∀ (s2 : led_driver_state_t), s2.phase = LedDriverPhase.Initialized →
      ∀ bytes, (LedSlaveDriver_Update N C ledDriverId slaves s2).2 = some bytes →
        bytes.length ≤ C + 1) ∧
    ledConverged N (ledIter N C ledDriverId slaves (ceilDiv N C + 1) s) ∧
    ((∀ i, i < N → s.sourceLedValues i ≠ s.targetLedValues i → s.ledIndex ≤ i) →
      ledConverged N (ledIter N C ledDriverId slaves (ceilDiv N C) s)) := by
  obtain ⟨hB, hM, hT⟩ := led_core N C ledDriverId slaves hC hCN (ceilDiv N C + 1)
  obtain ⟨hB0, hM0, hT0⟩ := led_core N C ledDriverId slaves hC hCN (ceilDiv N C)
  refine ⟨fun s2 h2 => ledUpdate_payload_bound N C ledDriverId slaves s2 hC hCN h2,
    ?_, ?_⟩
  · by_cases hconv : ledConverged N s
    · exact ledIter_converged N C ledDriverId slaves _ s hC hCN hphase hconv
    by_cases hA : ∃ i, min s.ledIndex (N - C) ≤ i ∧ i < N ∧
        s.sourceLedValues i ≠ s.targetLedValues i
    · classical
      obtain ⟨hplo, hpN, hpd⟩ := Nat.find_spec hA
      have hpmin : ∀ j, min s.ledIndex (N - C) ≤ j → j < Nat.find hA →
          s.sourceLedValues j = s.targetLedValues j := by
        intro j h1 h2
        by_contra hne
        exact Nat.find_min hA h2 ⟨h1, by omega, hne⟩
      by_cases hlip : s.ledIndex ≤ Nat.find hA
      · refine hM s (Nat.find hA) (min s.ledIndex (N - C)) N
          (ceilDiv (N - min s.ledIndex (N - C)) C)
          (ceilDiv (min s.ledIndex (N - C)) C)
          hphase hpN hpd hlip (by omega) (by omega) hpmin (by omega) (by omega)
          (fun i h1 h2 => absurd h2 (by omega))
          (le_trans (by omega)
            (ceilDiv_mul_ge C (N - min s.ledIndex (N - C)) hC))
          (ceilDiv_mul_ge C (min s.ledIndex (N - C)) hC) ?_
        have hsub := ceilDiv_subadd C (N - min s.ledIndex (N - C))
          (min s.ledIndex (N - C)) hC
        rw [show N - min s.ledIndex (N - C) + min s.ledIndex (N - C) = N by
          omega] at hsub
        exact hsub
      · have hs0NC : min s.ledIndex (N - C) = N - C := by omega
        refine hT s (Nat.find hA) (ceilDiv (N - C) C) hphase hpN hpd (by omega)
          (by omega) ?_ (ceilDiv_mul_ge C (N - C) hC) ?_
        · intro i h1 h2
          exact hpmin i (by omega) h2
        · have := ceilDiv_mono C (N - C) N (by omega)
          omega
    · push_neg at hA
      refine hB s 0 (min s.ledIndex (N - C)) (ceilDiv (min s.ledIndex (N - C)) C)
        hphase (fun i hi => absurd hi (by omega))
        (fun i h1 h2 => by
          by_contra hne
          exact hne (hA i h1 h2)) (by omega) (by omega)
        (le_trans (by omega) (ceilDiv_mul_ge C (min s.ledIndex (N - C)) hC)) ?_
      have := ceilDiv_mono C (min s.ledIndex (N - C)) N (by omega)
      omega
  · intro halign
    by_cases hconv : ledConverged N s
    · exact ledIter_converged N C ledDriverId slaves _ s hC hCN hphase hconv
    obtain ⟨q, hqN, hqd, hqmin⟩ := exists_least_diff N s hconv
    refine hM0 s q 0 N (ceilDiv (N - q) C) 0 hphase hqN hqd
      (halign q hqN hqd) (by omega) (by omega)
      (fun i _ h2 => hqmin i h2 (by omega)) hqN (by omega)
      (fun i h1 h2 => absurd h2 (by omega))
      (ceilDiv_mul_ge C (N - q) hC) (by simp) ?_
    have := ceilDiv_mono C (N - q) N (by omega)
    omega

/-- A state of the `Initialized` phase witnessing that the original
`⌈N / C⌉` bound fails: table size 4, chunk size 2, cursor 1, and mismatches
at indices 0, 1 and 3. -/
def c1CounterState : led_driver_state_t :=
  { phase := LedDriverPhase.Initialized, ledIndex := 1,
    sourceLedValues := fun i => if i = 2 then 0 else 1,
    targetLedValues := fun _ => 0,
    i2cAddress := 0, setupLedControlRegistersCommand := [] }

/-- Claim C1 fails as stated: with table size `N = 4` and chunk size
`C = 2` (the constants are parameters of the embedding, their repository
values living in a missing header), the state `c1CounterState` has an
initial mismatch, yet after `⌈N / C⌉ = 2` update calls with no further
source mutation the target still differs from the source — the call whose
cursor starts past an earlier mismatched index loses one pass.  A third
call does converge, matching the amended `⌈N / C⌉ + 1` bound. -/
theorem claim_C1_counterexample :
    ¬ ledConverged 4 c1CounterState ∧
    ceilDiv 4 2 = 2 ∧
    ¬ ledConverged 4 (ledIter 4 2 LedDriverId.left slavesAllConnected 2
      c1CounterState) ∧
    ledConverged 4 (ledIter 4 2 LedDriverId.left slavesAllConnected 3
      c1CounterState) := by
  refine ⟨by decide, by decide, by decide, by decide⟩

theorem claim_C1_witness :
    ledConverged 4 (ledIter 4 2 LedDriverId.left slavesAllConnected
      (ceilDiv 4 2 + 1) c1CounterState) :=
  (claim_C1_amended 4 2 LedDriverId.left slavesAllConnected c1CounterState
    (by decide) (by decide) rfl).2.1

end Firmware
